import Mathlib

/-!
# Verification of the netty daemon core against its specification

A shallow embedding of the netty capture daemon's packet-processing core:
the TLS SNI extractor (`parser` package), the conversation tracker
(`conversation` package), the reverse-DNS cache (`resolver` package), the
capture statistics (`capture` package) and the websocket fan-out admission
path (`websocket` package).  Go slices are lists of bytes (`List Nat`,
each < 256); Go maps are association lists; Go `time.Time` is a `Nat`
measured in seconds; fallible code (a nil-pointer dereference, an
out-of-bounds slice) returns `Option`, with `none` marking the panic.
-/

namespace Netty

/-! ## Association lists: the embedding of Go maps

`assocFind` is `m[k]` (comma-ok form), `assocInsert` is `m[k] = v`,
`assocErase` is `delete(m, k)`. -/

def assocFind {α : Type} (l : List (String × α)) (k : String) : Option α :=
  match l with
  | [] => none
  | (k', v) :: rest => if k' = k then some v else assocFind rest k

def assocInsert {α : Type} (l : List (String × α)) (k : String) (v : α) :
    List (String × α) :=
  match l with
  | [] => [(k, v)]
  | (k', v') :: rest =>
      if k' = k then (k, v) :: rest else (k', v') :: assocInsert rest k v

def assocErase {α : Type} (l : List (String × α)) (k : String) :
    List (String × α) :=
  match l with
  | [] => []
  | (k', v') :: rest =>
      if k' = k then rest else (k', v') :: assocErase rest k

/-! ## Bytes and byte-order helpers -/

/-- `payload[i]` on a Go byte slice, used only under a bounds check
(the surrounding code guarantees `i < payload.length`). -/
def byteAt (l : List Nat) (i : Nat) : Nat := l.getD i 0

/-- `binary.BigEndian.Uint16(p)`: `p[0]<<8 | p[1]`. -/
def u16be (hi lo : Nat) : Nat := hi * 256 + lo

/-- Go `string(b)` on a byte slice that has already been validated to be
ASCII (every byte < 128), so the byte-to-rune decoding is the identity. -/
def stringOfBytes (bs : List Nat) : String :=
  String.mk (bs.map Char.ofNat)

/-! ## TLS SNI extractor (`daemon/internal/parser`)

`ExtractSNI` returns `Option String`: `some s` is a normal return of `s`,
`none` marks the one unguarded slice expression
`payload[pos : pos+extLen]`, which panics in Go when `pos+extLen`
exceeds the slice capacity (for exactly-allocated payloads, its length). -/

/-- One byte of `isValidHostname`'s character test: ASCII letters, digits,
dot, hyphen.  Go iterates over runes; a non-ASCII byte decodes to a rune
≥ 0x80 (or U+FFFD), which this test rejects either way, so the byte-level
test is equivalent. -/
def isValidHostnameByte (c : Nat) : Bool :=
  (97 ≤ c && c ≤ 122) || (65 ≤ c && c ≤ 90) || (48 ≤ c && c ≤ 57) ||
    c = 46 || c = 45

/-- `bytes.Contains(hostname, "..")`: two consecutive `.` bytes. -/
def hasDoubleDot : List Nat → Bool
  | a :: b :: rest => (a = 46 && b = 46) || hasDoubleDot (b :: rest)
  | _ => false

/-- `isValidHostname`: length 1..255 bytes, only letters/digits/dot/hyphen,
no `..`. -/
def isValidHostname (bs : List Nat) : Bool :=
  !(bs.length = 0 || bs.length > 255) &&
    bs.all isValidHostnameByte && !hasDoubleDot bs

/-- The entry loop of `parseSNIExtension`.  Each iteration advances `pos`
by at least 3, so `fuel = listEnd + 1` iterations always suffice; the
fuel-exhausted branch is unreachable. -/
def sniEntryLoop (data : List Nat) (listEnd : Nat) : Nat → Nat → String
  | 0, _ => ""
  | fuel + 1, pos =>
      if pos < listEnd then
        if pos + 3 > data.length then ""
        else
          let sniType := byteAt data pos
          let sniLen := u16be (byteAt data (pos + 1)) (byteAt data (pos + 2))
          let pos' := pos + 3
          if sniType = 0 && pos' + sniLen ≤ data.length &&
              isValidHostname ((data.drop pos').take sniLen) then
            stringOfBytes ((data.drop pos').take sniLen)
          else sniEntryLoop data listEnd fuel (pos' + sniLen)
      else ""

/-- `parseSNIExtension`: 2-byte list length, then entries
`(type:u8, length:u16, data:length)`; the first type-0 entry whose body is
a valid hostname is returned.  Every access is bounds-checked, so this
function is total. -/
def parseSNIExtension (data : List Nat) : String :=
  if data.length < 2 then ""
  else
    let listLen := u16be (byteAt data 0) (byteAt data 1)
    if 2 + listLen > data.length then ""
    else sniEntryLoop data (2 + listLen) (2 + listLen + 1) 2

/-- The extension loop of `ExtractSNI`.  On extension type 0 the source
slices `payload[pos : pos+extLen]` without a bounds check: when
`pos+extLen > payload.length` that slice expression panics (`none`).
Each iteration advances `pos` by at least 4, so `fuel = extensionsEnd + 1`
always suffices. -/
def sniExtensionLoop (payload : List Nat) (extensionsEnd : Nat) :
    Nat → Nat → Option String
  | 0, _ => some ""
  | fuel + 1, pos =>
      if pos < extensionsEnd then
        if pos + 4 > payload.length then some ""
        else
          let extType := u16be (byteAt payload pos) (byteAt payload (pos + 1))
          let extLen := u16be (byteAt payload (pos + 2)) (byteAt payload (pos + 3))
          let pos' := pos + 4
          if extType = 0 then
            if pos' + extLen ≤ payload.length then
              some (parseSNIExtension ((payload.drop pos').take extLen))
            else none
          else sniExtensionLoop payload extensionsEnd fuel (pos' + extLen)
      else some ""

/-- `ExtractSNI`: walk the TLS record header, the ClientHello fixed
fields, session id, cipher suites and compression methods, then iterate
the extensions looking for `server_name` (type 0x0000). -/
def ExtractSNI (payload : List Nat) : Option String :=
  let n := payload.length
  if n < 5 then some ""
  else if byteAt payload 0 ≠ 0x16 then some ""
  -- pos = 5 after the record header
  else if 5 ≥ n then some ""
  else if byteAt payload 5 ≠ 0x01 then some ""
  -- pos = 6; skip the 3-byte ClientHello length
  else if 6 + 3 > n then some ""
  -- pos = 9; skip the 2-byte protocol version
  else if 9 + 2 > n then some ""
  -- pos = 11; skip the 32-byte random
  else if 11 + 32 > n then some ""
  -- pos = 43: session id length
  else if 43 ≥ n then some ""
  else
    let sessionIDLen := byteAt payload 43
    let pos := 44
    if pos + sessionIDLen > n then some ""
    else
      let pos := pos + sessionIDLen
      if pos + 2 > n then some ""
      else
        let cipherSuitesLen := u16be (byteAt payload pos) (byteAt payload (pos + 1))
        let pos := pos + 2
        if pos + cipherSuitesLen > n then some ""
        else
          let pos := pos + cipherSuitesLen
          if pos ≥ n then some ""
          else
            let compressionLen := byteAt payload pos
            let pos := pos + 1
            if pos + compressionLen > n then some ""
            else
              let pos := pos + compressionLen
              if pos + 2 > n then some ""
              else
                let extensionsLen := u16be (byteAt payload pos) (byteAt payload (pos + 1))
                let pos := pos + 2
                let extensionsEnd := pos + extensionsLen
                if extensionsEnd > n then some ""
                else sniExtensionLoop payload extensionsEnd (extensionsEnd + 1) pos

/-! ## `net.ParseIP` and `net.IP.String`

`ConversationKey.Normalize` compares `net.ParseIP(ip).String()` values.
An IP address is 16 bytes (IPv4 addresses are stored in their
IPv4-in-IPv6 form, as `net.ParseIP` does). -/

def decDigit (c : Char) : Option Nat :=
  if '0' ≤ c && c ≤ '9' then some (c.toNat - 48) else none

def hexDigit (c : Char) : Option Nat :=
  if '0' ≤ c && c ≤ '9' then some (c.toNat - 48)
  else if 'a' ≤ c && c ≤ 'f' then some (c.toNat - 87)
  else if 'A' ≤ c && c ≤ 'F' then some (c.toNat - 55)
  else none

/-- One dotted-quad field: decimal digits only, value 0..255, no leading
zero (`parseIPv4Fields` in Go's netip). -/
def parseIPv4Field (s : List Char) : Option Nat :=
  match s.mapM decDigit with
  | none => none
  | some ds =>
      if ds.length = 0 then none
      else if ds.length > 1 && ds.headI = 0 then none
      else
        let v := ds.foldl (fun acc d => acc * 10 + d) 0
        if v > 255 then none else some v

/-- The dotted-quad parser: exactly four dot-separated fields. -/
def parseIPv4Quad (s : List Char) : Option (List Nat) :=
  let parts := s.splitOn '.'
  if parts.length ≠ 4 then none
  else parts.mapM parseIPv4Field

/-- `xtoi`: leading hexadecimal digits of `s`, with an overflow check at
0xFFFF as in the IPv6 group parser; returns the value and the number of
digits consumed. -/
def xtoiAux : List Char → Nat → Nat → Option (Nat × Nat)
  | [], acc, cnt => if cnt = 0 then none else some (acc, cnt)
  | c :: rest, acc, cnt =>
      match hexDigit c with
      | none => if cnt = 0 then none else some (acc, cnt)
      | some d =>
          let acc' := acc * 16 + d
          if acc' > 0xFFFF then none else xtoiAux rest acc' (cnt + 1)

def xtoi (s : List Char) : Option (Nat × Nat) := xtoiAux s 0 0

/-- Post-loop completion of the IPv6 parser: a short address needs an
ellipsis (expanded with zero bytes at its position); a full 16-byte
address must not also carry an ellipsis. -/
def ipv6Finish (bytes : List Nat) (ellipsis : Option Nat) : Option (List Nat) :=
  if bytes.length < 16 then
    match ellipsis with
    | none => none
    | some e => some (bytes.take e ++ List.replicate (16 - bytes.length) 0 ++ bytes.drop e)
  else
    match ellipsis with
    | some _ => none
    | none => some bytes

/-- The group loop of Go's `parseIPv6`.  `bytes` holds the groups parsed
so far (two bytes per group); each iteration consumes at least one
character, so `fuel = s.length + 1` always suffices. -/
def ipv6Loop : List Char → List Nat → Option Nat → Nat → Option (List Nat)
  | _, _, _, 0 => none
  | s, bytes, ellipsis, fuel + 1 =>
      if bytes.length ≥ 16 then
        if s.isEmpty then ipv6Finish bytes ellipsis else none
      else
        match xtoi s with
        | none => none
        | some (n, c) =>
            let rest := s.drop c
            if rest.headI = '.' && !rest.isEmpty then
              -- trailing IPv4: must fill bytes 12..15 (unless an ellipsis
              -- provides the slack), parsed from the whole remainder
              if ellipsis.isNone && bytes.length ≠ 12 then none
              else if bytes.length + 4 > 16 then none
              else
                match parseIPv4Quad s with
                | none => none
                | some quad => ipv6Finish (bytes ++ quad) ellipsis
            else
              let bytes' := bytes ++ [n / 256, n % 256]
              if rest.isEmpty then ipv6Finish bytes' ellipsis
              else if rest.headI ≠ ':' || rest.length = 1 then none
              else
                let rest' := rest.drop 1
                if rest'.headI = ':' then
                  if ellipsis.isSome then none
                  else
                    let rest'' := rest'.drop 1
                    if rest''.isEmpty then ipv6Finish bytes' (some bytes'.length)
                    else ipv6Loop rest'' bytes' (some bytes'.length) fuel
                else ipv6Loop rest' bytes' ellipsis fuel

/-- Go's `parseIPv6`.  A `%` zone would be accepted by `netip` but is then
rejected by `net.ParseIP`, so it yields `none` here. -/
def parseIPv6Go (s : List Char) : Option (List Nat) :=
  if s.contains '%' then none
  else if s.take 2 = [':', ':'] then
    if s.length = 2 then some (List.replicate 16 0)
    else ipv6Loop (s.drop 2) [] (some 0) (s.length + 1)
  else ipv6Loop s [] none (s.length + 1)

/-- `net.ParseIP`: dispatch on the first `.`, `:` or `%` encountered. -/
def goParseIP (s : String) : Option (List Nat) :=
  match s.data.find? (fun c => c = '.' || c = ':' || c = '%') with
  | some '.' =>
      match parseIPv4Quad s.data with
      | some quad => some ([0, 0, 0, 0, 0, 0, 0, 0, 0, 0, 255, 255] ++ quad)
      | none => none
  | some ':' => parseIPv6Go s.data
  | _ => none

/-- Lowercase hexadecimal without leading zeros (`appendHex`). -/
def hexGroupStr (n : Nat) : String :=
  String.mk (Nat.toDigits 16 n)

/-- The 16-bit groups of a 16-byte address. -/
def ipGroups : List Nat → List Nat
  | b0 :: b1 :: rest => u16be b0 b1 :: ipGroups rest
  | _ => []

/-- Maximal runs of zero groups, as `(start, length)` pairs; `cur` is the
run currently being scanned. -/
def zeroRunsAux : List Nat → Nat → Option (Nat × Nat) → List (Nat × Nat)
  | [], _, cur => cur.toList
  | g :: rest, idx, cur =>
      if g = 0 then
        match cur with
        | some (st, len) => zeroRunsAux rest (idx + 1) (some (st, len + 1))
        | none => zeroRunsAux rest (idx + 1) (some (idx, 1))
      else
        match cur with
        | some r => r :: zeroRunsAux rest (idx + 1) none
        | none => zeroRunsAux rest (idx + 1) none

/-- Go compresses the leftmost longest run of at least two zero groups. -/
def bestZeroRun (gs : List Nat) : Option (Nat × Nat) :=
  let best := (zeroRunsAux gs 0 none).foldl
    (fun acc r =>
      match acc with
      | none => some r
      | some b => if r.2 > b.2 then some r else acc)
    none
  match best with
  | some (st, len) => if len ≥ 2 then some (st, len) else none
  | none => none

/-- RFC 5952 rendering used by `net.IP.String` for IPv6 addresses. -/
def ipv6String (gs : List Nat) : String :=
  match bestZeroRun gs with
  | none => String.intercalate ":" (gs.map hexGroupStr)
  | some (st, len) =>
      String.intercalate ":" ((gs.take st).map hexGroupStr) ++ "::" ++
        String.intercalate ":" ((gs.drop (st + len)).map hexGroupStr)

/-- `net.IP.String`: dotted quad when `To4` applies (the first 12 bytes
are the IPv4-in-IPv6 prefix), RFC 5952 text otherwise. -/
def ipString (b : List Nat) : String :=
  if b.take 12 = [0, 0, 0, 0, 0, 0, 0, 0, 0, 0, 255, 255] then
    String.intercalate "." ((b.drop 12).map Nat.repr)
  else ipv6String (ipGroups b)

/-- Go's byte-lexicographic `<` on strings (all strings compared here are
ASCII, so bytes coincide with characters). -/
def strLtGo : List Char → List Char → Bool
  | [], [] => false
  | [], _ :: _ => true
  | _ :: _, [] => false
  | a :: as, b :: bs =>
      if a.toNat < b.toNat then true
      else if b.toNat < a.toNat then false
      else strLtGo as bs

/-- Go's `>` on strings. -/
def strGtGo (a b : String) : Bool := strLtGo b.data a.data

/-! ## Conversation data model (`daemon/internal/models`)

Timestamps are `Nat` (seconds); `time.Duration` values are `Nat` seconds
as well.  Conversation ids are produced by `uuid.New().String()`; the
external uuid generator is modelled by a counter rendered to a string,
which preserves the property relied upon — each generated id is fresh. -/

inductive ConversationState
  | new
  | established
  | closing
  | closed
  deriving DecidableEq, Repr, Inhabited

/-- The order used by the spec's FSM: NEW → ESTABLISHED → CLOSING → CLOSED. -/
def stateRank : ConversationState → Nat
  | .new => 0
  | .established => 1
  | .closing => 2
  | .closed => 3

structure ConversationKey where
  Protocol : String
  SrcIP : String
  SrcPort : Nat
  DstIP : String
  DstPort : Nat
  deriving DecidableEq, Repr, Inhabited

/-- `ConversationKey.String()`:
`"%s:%s:%d->%s:%d"` over protocol, source and destination. -/
def ConversationKey.keyString (ck : ConversationKey) : String :=
  ck.Protocol ++ ":" ++ ck.SrcIP ++ ":" ++ Nat.repr ck.SrcPort ++ "->" ++
    ck.DstIP ++ ":" ++ Nat.repr ck.DstPort

/-- `ConversationKey.Reverse()`. -/
def ConversationKey.Reverse (ck : ConversationKey) : ConversationKey :=
  { Protocol := ck.Protocol
    SrcIP := ck.DstIP
    SrcPort := ck.DstPort
    DstIP := ck.SrcIP
    DstPort := ck.SrcPort }

/-- `ConversationKey.Normalize()`: if either IP fails to parse the key is
returned unchanged; otherwise the endpoint with the lexicographically
smaller canonical IP text (ties broken by the smaller port) goes first. -/
def ConversationKey.Normalize (ck : ConversationKey) : ConversationKey :=
  match goParseIP ck.SrcIP, goParseIP ck.DstIP with
  | some srcIP, some dstIP =>
      if strGtGo (ipString srcIP) (ipString dstIP) ||
          (ipString srcIP = ipString dstIP && ck.SrcPort > ck.DstPort) then
        ck.Reverse
      else ck
  | _, _ => ck

structure ConversationStats where
  PacketsIn : Nat := 0
  PacketsOut : Nat := 0
  BytesIn : Nat := 0
  BytesOut : Nat := 0
  FirstPacket : Nat := 0
  LastActivity : Nat := 0
  deriving DecidableEq, Repr, Inhabited

structure TCPConversationState where
  SYNSeen : Bool := false
  SYNACKSeen : Bool := false
  ACKSeen : Bool := false
  InitialSeqClient : Nat := 0
  InitialSeqServer : Nat := 0
  LastSeqClient : Nat := 0
  LastSeqServer : Nat := 0
  FINSeenClient : Bool := false
  FINSeenServer : Bool := false
  RSTSeen : Bool := false
  WindowClient : Nat := 0
  WindowServer : Nat := 0
  deriving DecidableEq, Repr, Inhabited

structure Conversation where
  ID : String
  Key : ConversationKey
  State : ConversationState
  StartTime : Nat
  EndTime : Option Nat := none
  Stats : ConversationStats
  TCPState : Option TCPConversationState := none
  Service : String := ""
  Hostname : String := ""
  deriving DecidableEq, Repr, Inhabited

/-- `Conversation.IsActive()`. -/
def Conversation.IsActive (c : Conversation) : Bool :=
  c.State = ConversationState.new || c.State = ConversationState.established

/-- `Conversation.TotalPackets()`. -/
def Conversation.TotalPackets (c : Conversation) : Nat :=
  c.Stats.PacketsIn + c.Stats.PacketsOut

/-- `Conversation.Duration()`: `end - start` when ended, `now - start`
otherwise (`time.Since`). -/
def Conversation.DurationAt (c : Conversation) (now : Nat) : Nat :=
  match c.EndTime with
  | some e => e - c.StartTime
  | none => now - c.StartTime

structure TCPPacketFlags where
  SYN : Bool := false
  ACK : Bool := false
  FIN : Bool := false
  RST : Bool := false
  PSH : Bool := false
  URG : Bool := false
  deriving DecidableEq, Repr, Inhabited

structure NetworkEvent where
  Timestamp : Nat
  Interface : String := ""
  Direction : String := ""
  Protocol : String := ""
  TransportProtocol : String
  AppProtocol : String := ""
  SourceIP : String
  DestIP : String
  SourcePort : Nat
  DestPort : Nat
  Size : Nat := 0
  SourceHostname : String := ""
  DestHostname : String := ""
  TLSServerName : String := ""
  ConversationID : String := ""
  TCPFlags : Option TCPPacketFlags := none
  SequenceNumber : Nat := 0
  AckNumber : Nat := 0
  deriving DecidableEq, Repr, Inhabited

/-- `ConversationSummary`, the compact per-flow record for the UI.
`Duration` is kept in seconds (the Go code renders it as text). -/
structure ConversationSummary where
  ID : String
  Protocol : String
  LocalAddr : String
  RemoteAddr : String
  State : ConversationState
  Duration : Nat
  PacketsIn : Nat
  PacketsOut : Nat
  BytesIn : Nat
  BytesOut : Nat
  Service : String
  LastActivity : Nat
  deriving DecidableEq, Repr, Inhabited

/-- `Conversation.ToSummary(localIP)`: copies the conversation's fields
into a fresh value record. -/
def Conversation.ToSummary (c : Conversation) (localIP : String) (now : Nat) :
    ConversationSummary :=
  let addr := fun (ip : String) (port : Nat) => ip ++ ":" ++ Nat.repr port
  let localAddr :=
    if c.Key.SrcIP = localIP then addr c.Key.SrcIP c.Key.SrcPort
    else addr c.Key.DstIP c.Key.DstPort
  let remoteAddr :=
    if c.Key.SrcIP = localIP then addr c.Key.DstIP c.Key.DstPort
    else addr c.Key.SrcIP c.Key.SrcPort
  { ID := c.ID
    Protocol := c.Key.Protocol
    LocalAddr := localAddr
    RemoteAddr := remoteAddr
    State := c.State
    Duration := c.DurationAt now
    PacketsIn := c.Stats.PacketsIn
    PacketsOut := c.Stats.PacketsOut
    BytesIn := c.Stats.BytesIn
    BytesOut := c.Stats.BytesOut
    Service := c.Service
    LastActivity := c.Stats.LastActivity }

/-! ## Conversation tracker (`daemon/internal/conversation`)

The `Manager` owns two maps, `conversations : id → *Conversation` and
`keyToID : normalized-key-string → id`.  Heap pointers are modelled by
conversation ids: an id is allocated exactly once (the counter `nextID`
stands in for `uuid.New()`), so dereferencing an id against the current
`conversations` map is dereferencing the Go pointer against the current
heap. -/

structure Manager where
  conversations : List (String × Conversation)
  keyToID : List (String × String)
  tcpTimeout : Nat
  udpTimeout : Nat
  localIP : String
  nextID : Nat
  deriving DecidableEq, Repr, Inhabited

/-- `NewManager`: empty maps, TCP timeout 5 min, UDP timeout 30 s. -/
def NewManager (localIP : String) : Manager :=
  { conversations := []
    keyToID := []
    tcpTimeout := 300
    udpTimeout := 30
    localIP := localIP
    nextID := 0 }

/-- The id `uuid.New().String()` returns for the `n`-th allocation. -/
def idOf (n : Nat) : String := "uuid-" ++ Nat.repr n

/-- `updateConversationStats`: stamp `LastActivity`, then bump the
outgoing counters when the packet's raw source IP is the local IP and the
incoming ones otherwise. -/
def updateConversationStats (localIP : String) (conv : Conversation)
    (event : NetworkEvent) (key : ConversationKey) : Conversation :=
  let stats := { conv.Stats with LastActivity := event.Timestamp }
  let stats :=
    if key.SrcIP = localIP then
      { stats with PacketsOut := stats.PacketsOut + 1
                   BytesOut := stats.BytesOut + event.Size }
    else
      { stats with PacketsIn := stats.PacketsIn + 1
                   BytesIn := stats.BytesIn + event.Size }
  { conv with Stats := stats }

/-- `updateTCPState`: the TCP state machine.  The caller only invokes it
for TCP events with flags present; a conversation without a `TCPState`
returns unchanged (the source's early `nil` return). -/
def updateTCPState (conv : Conversation) (event : NetworkEvent)
    (key : ConversationKey) : Conversation :=
  match conv.TCPState with
  | none => conv
  | some ts0 =>
      match event.TCPFlags with
      | none => conv
      | some flags =>
          let isClient := key.SrcIP = conv.Key.SrcIP && key.SrcPort = conv.Key.SrcPort
          -- SYN without ACK
          let ts := ts0
          let st := conv.State
          let ts :=
            if flags.SYN && !flags.ACK then
              { ts with SYNSeen := true
                        InitialSeqClient :=
                          if isClient then event.SequenceNumber else ts.InitialSeqClient
                        InitialSeqServer :=
                          if isClient then ts.InitialSeqServer else event.SequenceNumber }
            else ts
          let st := if flags.SYN && !flags.ACK then ConversationState.new else st
          -- SYN-ACK
          let ts :=
            if flags.SYN && flags.ACK then
              { ts with SYNACKSeen := true
                        InitialSeqServer :=
                          if !isClient then event.SequenceNumber else ts.InitialSeqServer }
            else ts
          -- pure ACK completing the handshake
          let handshakeACK :=
            flags.ACK && !flags.SYN && ts.SYNSeen && ts.SYNACKSeen && !ts.ACKSeen
          let ts := if handshakeACK then { ts with ACKSeen := true } else ts
          let st := if handshakeACK then ConversationState.established else st
          -- last sequence number per side
          let ts :=
            if isClient then { ts with LastSeqClient := event.SequenceNumber }
            else { ts with LastSeqServer := event.SequenceNumber }
          -- FIN (the source sets CLOSING whether one or both sides have
          -- sent FIN; its if/else branches assign the same state)
          let ts :=
            if flags.FIN then
              if isClient then { ts with FINSeenClient := true }
              else { ts with FINSeenServer := true }
            else ts
          let st := if flags.FIN then ConversationState.closing else st
          -- RST
          let ts := if flags.RST then { ts with RSTSeen := true } else ts
          let st := if flags.RST then ConversationState.closed else st
          let et := if flags.RST then some event.Timestamp else conv.EndTime
          { conv with TCPState := some ts, State := st, EndTime := et }

/-- The port → service table of `detectService`. -/
def servicesTable : List (Nat × String) :=
  [(20, "FTP-DATA"), (21, "FTP"), (22, "SSH"), (23, "TELNET"), (25, "SMTP"),
   (53, "DNS"), (80, "HTTP"), (110, "POP3"), (143, "IMAP"), (443, "HTTPS"),
   (445, "SMB"), (587, "SMTP-TLS"), (993, "IMAPS"), (995, "POP3S"),
   (1433, "MSSQL"), (3306, "MySQL"), (3389, "RDP"), (5432, "PostgreSQL"),
   (5900, "VNC"), (6379, "Redis"), (8080, "HTTP-ALT"), (8443, "HTTPS-ALT"),
   (9200, "Elasticsearch"), (27017, "MongoDB")]

def portService (port : Nat) : Option String :=
  (servicesTable.find? (fun p => p.1 = port)).map Prod.snd

/-- `detectService`: skip when a service was already detected; otherwise
infer from the destination port (fallback: source port) and finally let a
present `app_protocol` override. -/
def detectService (conv : Conversation) (event : NetworkEvent) : Conversation :=
  if conv.Service ≠ "" then conv
  else
    let svc :=
      match portService event.DestPort with
      | some s => s
      | none =>
          match portService event.SourcePort with
          | some s => s
          | none => conv.Service
    let svc := if event.AppProtocol ≠ "" then event.AppProtocol else svc
    { conv with Service := svc }

/-- The per-conversation body of `ProcessEvent` once the conversation is
in hand: update statistics, drive the TCP state machine when the event is
TCP with flags, detect the service. -/
def applyEvent (localIP : String) (conv : Conversation) (event : NetworkEvent)
    (key : ConversationKey) : Conversation :=
  let conv := updateConversationStats localIP conv event key
  let conv :=
    if event.TransportProtocol = "TCP" && event.TCPFlags.isSome then
      updateTCPState conv event key
    else conv
  detectService conv event

/-- The 5-tuple key built by `ProcessEvent` (ports pass through
`uint16(...)`). -/
def eventKey (event : NetworkEvent) : ConversationKey :=
  { Protocol := event.TransportProtocol
    SrcIP := event.SourceIP
    SrcPort := event.SourcePort % 65536
    DstIP := event.DestIP
    DstPort := event.DestPort % 65536 }

/-- `Manager.ProcessEvent`: look up or create the conversation for the
event's normalized key, stamp the event's `conversation_id`, update the
statistics, drive the TCP state machine, detect the service and store the
mutated conversation back.  `none` models the nil-pointer dereference Go
would hit if `keyToID` held an id absent from `conversations` (never the
case for managers built by this code). -/
def Manager.ProcessEvent (m : Manager) (event : NetworkEvent) :
    Option (Manager × NetworkEvent) :=
  let key := eventKey event
  let normalizedKey := key.Normalize
  let normalizedKeyStr := normalizedKey.keyString
  let looked : Option (String × Conversation × Bool) :=
    match assocFind m.keyToID normalizedKeyStr with
    | some cid =>
        match assocFind m.conversations cid with
        | some conv => some (cid, conv, false)
        | none => none
    | none =>
        let cid := idOf m.nextID
        let conv : Conversation :=
          { ID := cid
            Key := normalizedKey
            State := ConversationState.new
            StartTime := event.Timestamp
            Stats := { FirstPacket := event.Timestamp }
            TCPState :=
              if event.TransportProtocol = "TCP" && event.TCPFlags.isSome then
                some {}
              else none }
        some (cid, conv, true)
  match looked with
  | none => none
  | some (cid, conv, isNew) =>
      let event := { event with ConversationID := cid }
      let conv := applyEvent m.localIP conv event key
      some
        ({ m with
            conversations := assocInsert m.conversations cid conv
            keyToID :=
              if isNew then assocInsert m.keyToID normalizedKeyStr cid
              else m.keyToID
            nextID := if isNew then m.nextID + 1 else m.nextID },
          event)

/-- `Manager.GetConversation`. -/
def Manager.GetConversation (m : Manager) (id : String) : Option Conversation :=
  assocFind m.conversations id

/-- `Manager.GetActiveConversations` returns `[]*Conversation`: pointers
into the flow table, modelled as the ids of the active conversations (to
observe a returned pointer, dereference it against a manager state with
`Manager.GetConversation`). -/
def Manager.GetActiveConversations (m : Manager) : List String :=
  (m.conversations.filter (fun p => p.2.IsActive)).map Prod.fst

/-- `Manager.GetAllConversations` returns `[]*Conversation`: pointers to
every current entry, modelled as ids. -/
def Manager.GetAllConversations (m : Manager) : List String :=
  m.conversations.map Prod.fst

/-- `Manager.GetConversationSummaries` builds value records
(`ConversationSummary` copies), one per conversation. -/
def Manager.GetConversationSummaries (m : Manager) (now : Nat) :
    List ConversationSummary :=
  m.conversations.map (fun p => p.2.ToSummary m.localIP now)

/-- One entry of the eviction sweep: past its protocol's inactivity
timeout the state is promoted to CLOSED with `end_time = now`; past one
hour of inactivity the entry is deleted (the second component). -/
def cleanupConv (tcpTimeout udpTimeout now : Nat) (c : Conversation) :
    Conversation × Bool :=
  let timeout := if c.Key.Protocol = "TCP" then tcpTimeout else udpTimeout
  if now - c.Stats.LastActivity > timeout then
    let c' :=
      if c.State ≠ ConversationState.closed then
        { c with State := ConversationState.closed, EndTime := some now }
      else c
    (c', now - c.Stats.LastActivity > 3600)
  else (c, false)

/-- One iteration of the sweep's range loop, carrying the surviving
entries and the `keyToID` map. -/
def cleanupStep (tcpTimeout udpTimeout now : Nat)
    (acc : List (String × Conversation) × List (String × String))
    (p : String × Conversation) :
    List (String × Conversation) × List (String × String) :=
  let (c', delete) := cleanupConv tcpTimeout udpTimeout now p.2
  if delete then (acc.1, assocErase acc.2 p.2.Key.Normalize.keyString)
  else (acc.1 ++ [(p.1, c')], acc.2)

/-- `Manager.CleanupStaleConversations`: sweep every entry; deleting an
entry also drops its `keyToID` binding. -/
def Manager.CleanupStaleConversations (m : Manager) (now : Nat) : Manager :=
  let folded := m.conversations.foldl
    (cleanupStep m.tcpTimeout m.udpTimeout now) ([], m.keyToID)
  { m with conversations := folded.1, keyToID := folded.2 }

/-- A step of a tracker run: an event through `ProcessEvent` or an
eviction sweep at a given wall-clock time. -/
inductive TrackStep
  | ev : NetworkEvent → TrackStep
  | sweep : Nat → TrackStep
  deriving Repr, Inhabited

/-- Run a list of steps. -/
def Manager.runSteps (m : Manager) : List TrackStep → Option Manager
  | [] => some m
  | TrackStep.ev e :: rest =>
      match m.ProcessEvent e with
      | some (m', _) => m'.runSteps rest
      | none => none
  | TrackStep.sweep t :: rest => (m.CleanupStaleConversations t).runSteps rest

/-- Run a list of events, collecting the stamped events. -/
def Manager.runEvents (m : Manager) : List NetworkEvent →
    Option (Manager × List NetworkEvent)
  | [] => some (m, [])
  | e :: rest =>
      match m.ProcessEvent e with
      | some (m', e') =>
          match m'.runEvents rest with
          | some (mf, es) => some (mf, e' :: es)
          | none => none
      | none => none

/-! ## Reverse-DNS cache (`daemon/internal/resolver`)

`LookupAddr` is an external call; its outcome is passed in as
`lookupResult : Option (List String)` — `none` for an error, `some names`
for a reply (a reply with no names takes the failure path too).  The
returned `Bool` records whether the lookup was performed at all. -/

structure CacheEntry where
  hostname : String
  timestamp : Nat
  deriving DecidableEq, Repr, Inhabited

structure DNSResolver where
  cache : List (String × CacheEntry)
  ttl : Nat
  deriving DecidableEq, Repr, Inhabited

def NewDNSResolver (ttl : Nat) : DNSResolver := { cache := [], ttl := ttl }

/-- The cache probe at the top of `ResolveIP`: a hit only counts while
`time.Since(entry.timestamp) < ttl`. -/
def DNSResolver.cacheLookup (r : DNSResolver) (now : Nat) (ip : String) :
    Option String :=
  match assocFind r.cache ip with
  | some entry =>
      if (now : Int) - entry.timestamp < (r.ttl : Int) then some entry.hostname
      else none
  | none => none

/-- Go strips a single trailing dot from the first returned name. -/
def stripTrailingDot (hostname : String) : String :=
  if hostname.data ≠ [] && hostname.data.getLast? = some '.' then
    String.mk hostname.data.dropLast
  else hostname

/-- `DNSResolver.ResolveIP`. -/
def DNSResolver.ResolveIP (r : DNSResolver) (now : Nat)
    (lookupResult : Option (List String)) (ip : String) :
    DNSResolver × String × Bool :=
  match r.cacheLookup now ip with
  | some hostname => (r, hostname, false)
  | none =>
      match lookupResult with
      | none =>
          ({ r with cache := assocInsert r.cache ip ⟨ip, now⟩ }, ip, true)
      | some [] =>
          ({ r with cache := assocInsert r.cache ip ⟨ip, now⟩ }, ip, true)
      | some (name :: _) =>
          let hostname := stripTrailingDot name
          ({ r with cache := assocInsert r.cache ip ⟨hostname, now⟩ },
           hostname, true)

/-- `cleanupCache`: drop entries past the TTL. -/
def DNSResolver.cleanupCache (r : DNSResolver) (now : Nat) : DNSResolver :=
  { r with cache := r.cache.filter (fun p => ¬(now - p.2.timestamp > r.ttl)) }

/-! ## Capture statistics and the fan-out admission queues
(`daemon/internal/capture`, `daemon/internal/websocket`)

Two drop-rather-than-block points sit between the pipeline and the
subscribers: the capture goroutine's buffered event channel (capacity
100), whose full-channel branch calls `stats.IncrementDropped()`, and the
hub's broadcast channel (capacity 256) fed by `Server.Broadcast`, whose
full-channel branch only logs.  A buffered channel is a bounded queue;
`select { case ch <- x: default: }` is a non-blocking try-enqueue. -/

structure PacketStats where
  totalPackets : Nat := 0
  totalBytes : Nat := 0
  tcpPackets : Nat := 0
  udpPackets : Nat := 0
  droppedPackets : Nat := 0
  processedEvents : Nat := 0
  deriving DecidableEq, Repr, Inhabited

def PacketStats.IncrementDropped (ps : PacketStats) : PacketStats :=
  { ps with droppedPackets := ps.droppedPackets + 1 }

def PacketStats.IncrementProcessed (ps : PacketStats) : PacketStats :=
  { ps with processedEvents := ps.processedEvents + 1 }

/-- Capacity of the capture-side event channel (`make(chan ..., 100)`). -/
def eventsChanCap : Nat := 100

/-- The send in `PacketCapture.Start`'s loop: non-blocking enqueue of one
event; on success `IncrementProcessed`, on a full queue the event is
dropped and `IncrementDropped` runs. -/
def captureSend (queue : List NetworkEvent) (stats : PacketStats)
    (event : NetworkEvent) : List NetworkEvent × PacketStats :=
  if queue.length < eventsChanCap then
    (queue ++ [event], stats.IncrementProcessed)
  else (queue, stats.IncrementDropped)

/-- An outbound hub message: the `{type, data}` wrapper that
`Server.Broadcast` marshals (JSON encoding of these records cannot fail,
so the marshal step is elided). -/
structure WireMessage where
  type : String
  eventData : NetworkEvent
  deriving DecidableEq, Repr, Inhabited

/-- Capacity of the hub's broadcast channel (`make(chan []byte, 256)`). -/
def broadcastChanCap : Nat := 256

/-- `Server.Broadcast`: non-blocking enqueue onto the hub's broadcast
channel; a full channel drops the message with only a log line.  The
`PacketStats` value is threaded through unchanged because the websocket
server holds no reference to it — no counter is touched on this path. -/
def ServerBroadcast (queue : List WireMessage) (stats : PacketStats)
    (event : NetworkEvent) : List WireMessage × PacketStats :=
  let message : WireMessage := { type := "network_event", eventData := event }
  if queue.length < broadcastChanCap then (queue ++ [message], stats)
  else (queue, stats)

/-! ## Decidable run invariants -/

/-- Timestamps along a step list never decrease (sweep times are wall
clock and unconstrained). -/
def stepsMonoB : Nat → List TrackStep → Bool
  | _, [] => true
  | t, TrackStep.ev e :: rest => t ≤ e.Timestamp && stepsMonoB e.Timestamp rest
  | t, TrackStep.sweep _ :: rest => stepsMonoB t rest

/-- Every conversation in the table satisfies
`start_time ≤ last_activity`. -/
def startBeforeLastB (m : Manager) : Bool :=
  m.conversations.all fun p => p.2.StartTime ≤ p.2.Stats.LastActivity

def optAllManager (f : Manager → Bool) : Option Manager → Bool
  | none => true
  | some m => f m

/-- The spec's `end_time`, when set, is at least `last_activity`. -/
def endTimeInvB (c : Conversation) : Bool :=
  match c.EndTime with
  | some et => c.Stats.LastActivity ≤ et
  | none => true

/-- Every conversation began no later than `t`, and no later than its
own last activity. -/
def timeOKP (m : Manager) (t : Nat) : Prop :=
  ∀ p ∈ m.conversations,
    p.2.StartTime ≤ t ∧ p.2.StartTime ≤ p.2.Stats.LastActivity

/-- The three FSM assignments that may move a state backward: a
SYN-without-ACK packet lands in NEW, a FIN packet lands in CLOSING, a
pure ACK lands in ESTABLISHED. -/
def fsmExceptionB : Option TCPPacketFlags → ConversationState → Bool
  | some f, s =>
      (f.SYN && !f.ACK && decide (s = ConversationState.new)) ||
      (f.FIN && decide (s = ConversationState.closing)) ||
      (f.ACK && !f.SYN && decide (s = ConversationState.established))
  | none, _ => false

/-! ## Concrete scenario inputs -/

def flagsSYN : TCPPacketFlags := { SYN := true }
def flagsSYNACK : TCPPacketFlags := { SYN := true, ACK := true }
def flagsACKOnly : TCPPacketFlags := { ACK := true }
def flagsRSTOnly : TCPPacketFlags := { RST := true }

def tcpEvent (t : Nat) (srcIP : String) (srcPort : Nat) (dstIP : String)
    (dstPort : Nat) (f : Option TCPPacketFlags) (seq : Nat) : NetworkEvent :=
  { Timestamp := t
    TransportProtocol := "TCP"
    SourceIP := srcIP
    DestIP := dstIP
    SourcePort := srcPort
    DestPort := dstPort
    Size := 60
    TCPFlags := f
    SequenceNumber := seq }

/-- Scenario S1: the three-way handshake
`10.0.0.1:40000 ↔ 93.184.216.34:443`. -/
def s1e1 : NetworkEvent :=
  tcpEvent 0 "10.0.0.1" 40000 "93.184.216.34" 443 (some flagsSYN) 100

def s1e2 : NetworkEvent :=
  { tcpEvent 1 "93.184.216.34" 443 "10.0.0.1" 40000 (some flagsSYNACK) 200 with
      AckNumber := 101 }

def s1e3 : NetworkEvent :=
  { tcpEvent 2 "10.0.0.1" 40000 "93.184.216.34" 443 (some flagsACKOnly) 101 with
      AckNumber := 201 }

/-- Scenario S4: RST on the established flow, then more traffic on the
same 5-tuple. -/
def rstEvent : NetworkEvent :=
  tcpEvent 10 "10.0.0.1" 40000 "93.184.216.34" 443 (some flagsRSTOnly) 102

def afterRstEvent : NetworkEvent :=
  tcpEvent 20 "10.0.0.1" 40000 "93.184.216.34" 443 (some flagsACKOnly) 103

/-- A retransmitted SYN landing on the established flow. -/
def lateSynEvent : NetworkEvent :=
  tcpEvent 3 "10.0.0.1" 40000 "93.184.216.34" 443 (some flagsSYN) 104

/-- A follow-up event that carries `app_protocol` after the service was
already port-inferred. -/
def appProtoEvent : NetworkEvent :=
  { tcpEvent 1 "10.0.0.1" 40000 "93.184.216.34" 443 (some flagsACKOnly) 101 with
      AppProtocol := "SSH" }

/-- Two directions of a flow whose endpoint strings do not parse as IP
addresses. -/
def rawKeyEvent1 : NetworkEvent :=
  { Timestamp := 0
    TransportProtocol := "TCP"
    SourceIP := "hostA"
    DestIP := "hostB"
    SourcePort := 1
    DestPort := 2
    Size := 40 }

def rawKeyEvent2 : NetworkEvent :=
  { Timestamp := 1
    TransportProtocol := "TCP"
    SourceIP := "hostB"
    DestIP := "hostA"
    SourcePort := 2
    DestPort := 1
    Size := 40 }

/-- The manager after the S1 handshake on a fresh tracker. -/
def demoM : Manager :=
  (((NewManager "10.0.0.1").runEvents [s1e1, s1e2, s1e3]).getD
    (NewManager "10.0.0.1", [])).1

/-- The handshake flow's (normalized) key string. -/
def demoKeyStr : String := (eventKey s1e1).Normalize.keyString

/-- Processing the RST on `demoM`, and the pieces of the result. -/
def demoRstResult : Manager × NetworkEvent :=
  (demoM.ProcessEvent rstEvent).getD (demoM, rstEvent)

def demoMAfterRst : Manager := demoRstResult.1

def demoEAfterRst : NetworkEvent := demoRstResult.2

def demoConvAfterRst : Conversation :=
  (assocFind demoMAfterRst.conversations demoEAfterRst.ConversationID).getD default

/-- The handshake conversation as stored in `demoM`. -/
def demoConv : Conversation :=
  (assocFind demoM.conversations "uuid-0").getD default

/-- Processing the app-protocol event on `demoM`. -/
def demoAppResult : Manager × NetworkEvent :=
  (demoM.ProcessEvent appProtoEvent).getD (demoM, appProtoEvent)

def demoConvAfterApp : Conversation :=
  (assocFind demoAppResult.1.conversations "uuid-0").getD default

/-- Processing the retransmitted SYN on `demoM`. -/
def demoSynResult : Manager × NetworkEvent :=
  (demoM.ProcessEvent lateSynEvent).getD (demoM, lateSynEvent)

def demoConvAfterSyn : Conversation :=
  (assocFind demoSynResult.1.conversations "uuid-0").getD default

/-- The handshake conversation after a sweep at t = 400 (past the TCP
inactivity timeout). -/
def demoConvSwept : Conversation :=
  (assocFind (demoM.CleanupStaleConversations 400).conversations "uuid-0").getD
    default

/-- A step list with a sweep interleaved, for the run invariant. -/
def demoSteps : List TrackStep :=
  [TrackStep.ev s1e1, TrackStep.ev s1e2, TrackStep.sweep 400, TrackStep.ev s1e3]

/-- The 57-byte TLS record that makes `ExtractSNI` slice out of bounds: a
well-formed ClientHello prefix whose extensions block (declared length 8)
holds a server_name extension whose own declared length, 255, overruns
the payload.  The source slices `payload[53:53+255]` with only 57 bytes
present. -/
def sniPanicPayload : List Nat :=
  [0x16, 0, 0, 0, 0, 0x01, 0, 0, 0, 0, 0] ++ List.replicate 32 0 ++
    [0, 0, 0, 0, 0, 8, 0, 0, 0, 255, 0, 0, 0, 0]

/-- A hub message and stats value for the admission-queue scenarios. -/
def demoStats : PacketStats := { droppedPackets := 7, processedEvents := 9 }

def demoWireMessage : WireMessage :=
  { type := "network_event", eventData := s1e1 }

/-- A broadcast queue that is exactly full. -/
def fullBroadcastQueue : List WireMessage :=
  List.replicate broadcastChanCap demoWireMessage

/-- A capture-side event queue that is exactly full. -/
def fullEventsQueue : List NetworkEvent := List.replicate eventsChanCap s1e1

/-- A resolver scenario: fresh cache, one lookup, then a repeat within
the TTL. -/
def demoResolver : DNSResolver := NewDNSResolver 300

/-! ## Lemmas about the embedding of Go maps -/

theorem assocFind_insert_self {α : Type} (l : List (String × α)) (k : String) (v : α) :
    assocFind (assocInsert l k v) k = some v := by
  induction l with
  | nil => simp [assocInsert, assocFind]
  | cons h t ih =>
      obtain ⟨k', v'⟩ := h
      by_cases hk : k' = k
      · simp [assocInsert, hk, assocFind]
      · simp [assocInsert, hk, assocFind, ih]

theorem assocFind_insert_ne {α : Type} (l : List (String × α)) (k k' : String) (v : α)
    (h : k' ≠ k) : assocFind (assocInsert l k v) k' = assocFind l k' := by
  induction l with
  | nil => simp [assocInsert, assocFind, Ne.symm h]
  | cons hd t ih =>
      obtain ⟨k₀, v₀⟩ := hd
      by_cases hk : k₀ = k
      · subst hk
        simp [assocInsert, assocFind, Ne.symm h]
      · simp only [assocInsert, if_neg hk, assocFind]
        by_cases hk' : k₀ = k'
        · simp [hk']
        · simp [hk', ih]

theorem mem_assocInsert {α : Type} (l : List (String × α)) (k : String) (v : α)
    (p : String × α) : p ∈ assocInsert l k v → p = (k, v) ∨ p ∈ l := by
  induction l with
  | nil => intro h; simpa [assocInsert] using h
  | cons hd t ih =>
      obtain ⟨k₀, v₀⟩ := hd
      by_cases hk : k₀ = k
      · intro h
        simp only [assocInsert, if_pos hk, List.mem_cons] at h
        rcases h with h | h
        · exact Or.inl h
        · exact Or.inr (List.mem_cons_of_mem _ h)
      · intro h
        simp only [assocInsert, if_neg hk, List.mem_cons] at h
        rcases h with h | h
        · exact Or.inr (h ▸ List.mem_cons_self _ _)
        · rcases ih h with h' | h'
          · exact Or.inl h'
          · exact Or.inr (List.mem_cons_of_mem _ h')

theorem assocFind_mem {α : Type} (l : List (String × α)) (k : String) (v : α) :
    assocFind l k = some v → (k, v) ∈ l := by
  induction l with
  | nil => intro h; simp [assocFind] at h
  | cons hd t ih =>
      obtain ⟨k₀, v₀⟩ := hd
      by_cases hk : k₀ = k
      · intro h
        simp only [assocFind, if_pos hk] at h
        cases h
        exact hk ▸ List.mem_cons_self _ _
      · intro h
        simp only [assocFind, if_neg hk] at h
        exact List.mem_cons_of_mem _ (ih h)

/-! ## Lemmas about the tracker's building blocks -/

section TrackerLemmas

variable (localIP : String) (c : Conversation) (e : NetworkEvent)
variable (k : ConversationKey)

theorem ucs_State : (updateConversationStats localIP c e k).State = c.State := rfl

theorem ucs_TCPState :
    (updateConversationStats localIP c e k).TCPState = c.TCPState := rfl

theorem ucs_EndTime :
    (updateConversationStats localIP c e k).EndTime = c.EndTime := rfl

theorem ucs_Service :
    (updateConversationStats localIP c e k).Service = c.Service := rfl

theorem ucs_StartTime :
    (updateConversationStats localIP c e k).StartTime = c.StartTime := rfl

theorem ucs_LastActivity :
    (updateConversationStats localIP c e k).Stats.LastActivity = e.Timestamp := by
  unfold updateConversationStats
  by_cases h : k.SrcIP = localIP <;> simp [h]

theorem ucs_TotalPackets :
    (updateConversationStats localIP c e k).TotalPackets = c.TotalPackets + 1 := by
  unfold updateConversationStats Conversation.TotalPackets
  by_cases h : k.SrcIP = localIP <;> simp [h] <;> omega

theorem utcp_Stats : (updateTCPState c e k).Stats = c.Stats := by
  unfold updateTCPState
  cases c.TCPState <;> cases e.TCPFlags <;> simp

theorem utcp_StartTime : (updateTCPState c e k).StartTime = c.StartTime := by
  unfold updateTCPState
  cases c.TCPState <;> cases e.TCPFlags <;> simp

theorem utcp_Service : (updateTCPState c e k).Service = c.Service := by
  unfold updateTCPState
  cases c.TCPState <;> cases e.TCPFlags <;> simp

theorem utcp_TCPState_isSome :
    (updateTCPState c e k).TCPState.isSome = c.TCPState.isSome := by
  unfold updateTCPState
  cases hts : c.TCPState <;> cases hf : e.TCPFlags <;> simp [hts, hf]

theorem dS_State : (detectService c e).State = c.State := by
  unfold detectService
  by_cases h : c.Service ≠ "" <;> simp [h]

theorem dS_EndTime : (detectService c e).EndTime = c.EndTime := by
  unfold detectService
  by_cases h : c.Service ≠ "" <;> simp [h]

theorem dS_TCPState : (detectService c e).TCPState = c.TCPState := by
  unfold detectService
  by_cases h : c.Service ≠ "" <;> simp [h]

theorem dS_Stats : (detectService c e).Stats = c.Stats := by
  unfold detectService
  by_cases h : c.Service ≠ "" <;> simp [h]

theorem dS_StartTime : (detectService c e).StartTime = c.StartTime := by
  unfold detectService
  by_cases h : c.Service ≠ "" <;> simp [h]

theorem dS_Service_stable (h : c.Service ≠ "") :
    (detectService c e).Service = c.Service := by
  unfold detectService
  simp [h]

theorem stateRank_le_three (s : ConversationState) : stateRank s ≤ 3 := by
  cases s <;> simp [stateRank]

/-- The state the TCP FSM leaves behind, in branch-priority order:
RST beats FIN beats the handshake-completing ACK beats SYN. -/
theorem utcp_State_formula (ts0 : TCPConversationState) (f : TCPPacketFlags)
    (hts : c.TCPState = some ts0) (hf : e.TCPFlags = some f) :
    (updateTCPState c e k).State =
      (if f.RST then ConversationState.closed
       else if f.FIN then ConversationState.closing
       else if f.ACK && !f.SYN && ts0.SYNSeen && ts0.SYNACKSeen && !ts0.ACKSeen then
         ConversationState.established
       else if f.SYN && !f.ACK then ConversationState.new
       else c.State) := by
  unfold updateTCPState
  simp only [hts, hf]
  obtain ⟨syn, ack, fin, rst, psh, urg⟩ := f
  cases syn <;> cases ack <;> cases fin <;> cases rst <;> simp

/-- The FSM writes `end_time` exactly on RST, with the event's
timestamp. -/
theorem utcp_EndTime_formula (ts0 : TCPConversationState) (f : TCPPacketFlags)
    (hts : c.TCPState = some ts0) (hf : e.TCPFlags = some f) :
    (updateTCPState c e k).EndTime =
      (if f.RST then some e.Timestamp else c.EndTime) := by
  unfold updateTCPState
  simp only [hts, hf]

theorem utcp_EndTime_of_no_ts (hts : c.TCPState = none) :
    (updateTCPState c e k).EndTime = c.EndTime := by
  unfold updateTCPState
  simp [hts]

theorem utcp_State_of_no_ts (hts : c.TCPState = none) :
    (updateTCPState c e k).State = c.State := by
  unfold updateTCPState
  simp [hts]

end TrackerLemmas

section ApplyEventLemmas

variable (lip : String) (c : Conversation) (e : NetworkEvent)
variable (k : ConversationKey)

theorem applyEvent_StartTime : (applyEvent lip c e k).StartTime = c.StartTime := by
  unfold applyEvent
  split <;> simp [dS_StartTime, utcp_StartTime, ucs_StartTime]

theorem applyEvent_Stats_tcp (h : (decide (e.TransportProtocol = "TCP") &&
    e.TCPFlags.isSome) = true) :
    (applyEvent lip c e k).Stats =
      (updateConversationStats lip c e k).Stats := by
  unfold applyEvent
  simp [h, dS_Stats, utcp_Stats]

theorem applyEvent_LastActivity :
    (applyEvent lip c e k).Stats.LastActivity = e.Timestamp := by
  unfold applyEvent
  split <;> simp [dS_Stats, utcp_Stats, ucs_LastActivity]

theorem applyEvent_TotalPackets :
    (applyEvent lip c e k).TotalPackets = c.TotalPackets + 1 := by
  have h : (applyEvent lip c e k).Stats =
      (updateConversationStats lip c e k).Stats := by
    unfold applyEvent
    split <;> simp [dS_Stats, utcp_Stats]
  unfold Conversation.TotalPackets at *
  rw [h]
  have := ucs_TotalPackets lip c e k
  unfold Conversation.TotalPackets at this
  omega

theorem applyEvent_TCPState_isSome :
    (applyEvent lip c e k).TCPState.isSome = c.TCPState.isSome := by
  unfold applyEvent
  split <;> simp [dS_TCPState, utcp_TCPState_isSome, ucs_TCPState]

theorem applyEvent_Service_stable (h : c.Service ≠ "") :
    (applyEvent lip c e k).Service = c.Service := by
  unfold applyEvent
  have h1 : (updateConversationStats lip c e k).Service = c.Service :=
    ucs_Service lip c e k
  split
  · rw [dS_Service_stable, utcp_Service, h1]
    rw [utcp_Service, h1]
    exact h
  · rw [dS_Service_stable, h1]
    rw [h1]
    exact h

/-- After processing a TCP event whose flags carry RST, a conversation
that tracks TCP state is CLOSED with `end_time` equal to the event's
timestamp. -/
theorem applyEvent_closed_of_RST (f : TCPPacketFlags)
    (htcp : e.TransportProtocol = "TCP") (hf : e.TCPFlags = some f)
    (hrst : f.RST = true) (hts : c.TCPState.isSome = true) :
    (applyEvent lip c e k).State = ConversationState.closed ∧
    (applyEvent lip c e k).EndTime = some e.Timestamp := by
  unfold applyEvent
  have hcond : (decide (e.TransportProtocol = "TCP") && e.TCPFlags.isSome) = true := by
    simp [htcp, hf]
  simp only [hcond, if_true]
  set c1 := updateConversationStats lip c e k with hc1
  have hts1 : c1.TCPState = c.TCPState := ucs_TCPState lip c e k
  cases hts0 : c.TCPState with
  | none => rw [hts0] at hts; simp at hts
  | some ts0 =>
      have hts1' : c1.TCPState = some ts0 := by rw [hts1, hts0]
      constructor
      · rw [dS_State, utcp_State_formula c1 e k ts0 f hts1' hf, hrst]
        simp
      · rw [dS_EndTime, utcp_EndTime_formula c1 e k ts0 f hts1' hf, hrst]
        simp

/-- Forward-or-exception characterization of one event's effect on the
state: either the rank does not decrease, or the event's flags force one
of the three re-entrant assignments (SYN → NEW, FIN → CLOSING,
handshake ACK → ESTABLISHED). -/
theorem applyEvent_forward :
    stateRank c.State ≤ stateRank (applyEvent lip c e k).State ∨
    ∃ f, e.TCPFlags = some f ∧
      ((f.SYN = true ∧ f.ACK = false ∧
          (applyEvent lip c e k).State = ConversationState.new) ∨
       (f.FIN = true ∧ (applyEvent lip c e k).State = ConversationState.closing) ∨
       (f.ACK = true ∧ f.SYN = false ∧
          (applyEvent lip c e k).State = ConversationState.established)) := by
  unfold applyEvent
  by_cases hcond : (decide (e.TransportProtocol = "TCP") && e.TCPFlags.isSome) = true
  · simp only [hcond, if_true]
    set c1 := updateConversationStats lip c e k with hc1
    have hst1 : c1.State = c.State := ucs_State lip c e k
    have hts1 : c1.TCPState = c.TCPState := ucs_TCPState lip c e k
    cases hts0 : c.TCPState with
    | none =>
        left
        rw [dS_State, utcp_State_of_no_ts c1 e k (by rw [hts1, hts0]), hst1]
    | some ts0 =>
        have hts1' : c1.TCPState = some ts0 := by rw [hts1, hts0]
        cases hf : e.TCPFlags with
        | none => simp [hf] at hcond
        | some f =>
            rw [dS_State, utcp_State_formula c1 e k ts0 f hts1' hf, hst1]
            by_cases hrst : f.RST = true
            · left
              simp only [hrst, if_true]
              exact stateRank_le_three _
            · by_cases hfin : f.FIN = true
              · right
                refine ⟨f, rfl, Or.inr (Or.inl ⟨hfin, ?_⟩)⟩
                simp [hrst, hfin]
              · by_cases hhs : (f.ACK && !f.SYN && ts0.SYNSeen &&
                    ts0.SYNACKSeen && !ts0.ACKSeen) = true
                · right
                  have hack : f.ACK = true := by
                    rcases Bool.and_eq_true_iff.mp hhs with ⟨h1, _⟩
                    rcases Bool.and_eq_true_iff.mp h1 with ⟨h2, _⟩
                    rcases Bool.and_eq_true_iff.mp h2 with ⟨h3, _⟩
                    exact (Bool.and_eq_true_iff.mp h3).1
                  have hsyn : f.SYN = false := by
                    rcases Bool.and_eq_true_iff.mp hhs with ⟨h1, _⟩
                    rcases Bool.and_eq_true_iff.mp h1 with ⟨h2, _⟩
                    rcases Bool.and_eq_true_iff.mp h2 with ⟨h3, _⟩
                    have := (Bool.and_eq_true_iff.mp h3).2
                    simpa using this
                  refine ⟨f, rfl, Or.inr (Or.inr ⟨hack, hsyn, ?_⟩)⟩
                  simp [hrst, hfin, hhs]
                · by_cases hsyn : (f.SYN && !f.ACK) = true
                  · right
                    refine ⟨f, rfl, Or.inl ⟨(Bool.and_eq_true_iff.mp hsyn).1, ?_, ?_⟩⟩
                    · have := (Bool.and_eq_true_iff.mp hsyn).2
                      simpa using this
                    · simp [hrst, hfin, hhs, hsyn]
                  · left
                    simp [hrst, hfin, hhs, hsyn]
  · have hcond' : (decide (e.TransportProtocol = "TCP") && e.TCPFlags.isSome) = false := by
      simpa using hcond
    left
    simp [hcond', dS_State, ucs_State]

end ApplyEventLemmas

section ProcessEventLemmas

/-- `ProcessEvent` on a key already filed: the event is stamped with the
existing id, the stored conversation is updated in place, and neither the
key map nor the id counter changes. -/
theorem processEvent_existing (m : Manager) (e : NetworkEvent) (cid : String)
    (conv : Conversation)
    (h1 : assocFind m.keyToID ((eventKey e).Normalize.keyString) = some cid)
    (h2 : assocFind m.conversations cid = some conv) :
    m.ProcessEvent e = some
      ({ m with conversations := (assocInsert m.conversations cid
          (applyEvent m.localIP conv { e with ConversationID := cid } (eventKey e))) },
        { e with ConversationID := cid }) := by
  unfold Manager.ProcessEvent
  simp [h1, h2]

/-- `ProcessEvent` on an unfiled key: a fresh id is allocated and a new
conversation is created and filed. -/
theorem processEvent_fresh (m : Manager) (e : NetworkEvent)
    (h1 : assocFind m.keyToID ((eventKey e).Normalize.keyString) = none) :
    m.ProcessEvent e = some
      ({ m with
          conversations := (assocInsert m.conversations (idOf m.nextID)
            (applyEvent m.localIP
              { ID := idOf m.nextID
                Key := (eventKey e).Normalize
                State := ConversationState.new
                StartTime := e.Timestamp
                Stats := { FirstPacket := e.Timestamp }
                TCPState :=
                  if e.TransportProtocol = "TCP" && e.TCPFlags.isSome then
                    some {}
                  else none }
              { e with ConversationID := idOf m.nextID } (eventKey e)))
          keyToID := (assocInsert m.keyToID ((eventKey e).Normalize.keyString)
            (idOf m.nextID))
          nextID := m.nextID + 1 },
        { e with ConversationID := idOf m.nextID }) := by
  unfold Manager.ProcessEvent
  simp [h1]

/-- The nil-pointer case: a key filed under an id with no conversation
behind it makes `ProcessEvent` panic. -/
theorem processEvent_dangling (m : Manager) (e : NetworkEvent) (cid : String)
    (h1 : assocFind m.keyToID ((eventKey e).Normalize.keyString) = some cid)
    (h2 : assocFind m.conversations cid = none) :
    m.ProcessEvent e = none := by
  unfold Manager.ProcessEvent
  simp [h1, h2]

end ProcessEventLemmas

section CleanupLemmas

/-- What one sweep iteration does to a conversation: leave it alone, or
promote it to CLOSED stamping `end_time = now` (only possible when it has
been inactive since strictly before `now`). -/
theorem cleanupConv_cases (tcpT udpT now : Nat) (c : Conversation) :
    (cleanupConv tcpT udpT now c).1 = c ∨
    ((cleanupConv tcpT udpT now c).1 =
        { c with State := ConversationState.closed, EndTime := some now } ∧
      c.Stats.LastActivity < now) := by
  unfold cleanupConv
  by_cases h1 : now - c.Stats.LastActivity >
      (if c.Key.Protocol = "TCP" then tcpT else udpT)
  · by_cases h2 : c.State = ConversationState.closed
    · left
      simp [h1, h2]
    · right
      constructor
      · simp [h1, h2]
      · omega
  · left
    simp [h1]

/-- Every entry surviving the sweep's fold comes from the accumulator or
from a swept input entry. -/
theorem cleanupFold_mem (tcpT udpT now : Nat)
    (l : List (String × Conversation))
    (acc : List (String × Conversation) × List (String × String))
    (p' : String × Conversation)
    (h : p' ∈ (l.foldl (cleanupStep tcpT udpT now) acc).1) :
    p' ∈ acc.1 ∨
    ∃ c, (p'.1, c) ∈ l ∧ p'.2 = (cleanupConv tcpT udpT now c).1 := by
  induction l generalizing acc with
  | nil => exact Or.inl h
  | cons hd t ih =>
      simp only [List.foldl_cons] at h
      rcases ih (cleanupStep tcpT udpT now acc hd) h with h' | ⟨c, hc1, hc2⟩
      · unfold cleanupStep at h'
        by_cases hdel : (cleanupConv tcpT udpT now hd.2).2 = true
        · simp only [hdel, if_true] at h'
          exact Or.inl h'
        · simp only [Bool.not_eq_true] at hdel
          simp only [hdel, Bool.false_eq_true, if_false, List.mem_append,
            List.mem_singleton] at h'
          rcases h' with h' | h'
          · exact Or.inl h'
          · refine Or.inr ⟨hd.2, ?_, ?_⟩
            · have : p'.1 = hd.1 := by rw [h']
              rw [this]
              exact List.mem_cons_self _ _
            · rw [h']
      · exact Or.inr ⟨c, List.mem_cons_of_mem _ hc1, hc2⟩

/-- Every entry of the swept flow table is a swept version of an entry of
the original table. -/
theorem cleanup_mem (m : Manager) (now : Nat) (p' : String × Conversation)
    (h : p' ∈ (m.CleanupStaleConversations now).conversations) :
    ∃ c, (p'.1, c) ∈ m.conversations ∧
      p'.2 = (cleanupConv m.tcpTimeout m.udpTimeout now c).1 := by
  unfold Manager.CleanupStaleConversations at h
  rcases cleanupFold_mem m.tcpTimeout m.udpTimeout now m.conversations
      ([], m.keyToID) p' h with h' | h'
  · simp at h'
  · exact h'

end CleanupLemmas

section RunLemmas

/-- One `ProcessEvent` step preserves the time invariant, moving the
bound up to the event's timestamp. -/
theorem processEvent_timeOK (m : Manager) (e : NetworkEvent) (m' : Manager)
    (e' : NetworkEvent) (t : Nat) (h : timeOKP m t) (hte : t ≤ e.Timestamp)
    (hpe : m.ProcessEvent e = some (m', e')) : timeOKP m' e.Timestamp := by
  cases hk : assocFind m.keyToID ((eventKey e).Normalize.keyString) with
  | some cid =>
      cases hc : assocFind m.conversations cid with
      | some conv =>
          rw [processEvent_existing m e cid conv hk hc] at hpe
          injection hpe with hpe'
          have hm' := congrArg Prod.fst hpe'
          simp only at hm'
          subst hm'
          intro p hp
          rcases mem_assocInsert _ _ _ _ hp with heq | hpold
          · subst heq
            have hbase := h (cid, conv) (assocFind_mem _ _ _ hc)
            dsimp only at hbase ⊢
            constructor
            · simp only [applyEvent_StartTime]
              omega
            · simp only [applyEvent_StartTime, applyEvent_LastActivity]
              omega
          · have hbase := h p hpold
            exact ⟨le_trans hbase.1 hte, hbase.2⟩
      | none =>
          rw [processEvent_dangling m e cid hk hc] at hpe
          cases hpe
  | none =>
      rw [processEvent_fresh m e hk] at hpe
      injection hpe with hpe'
      have hm' := congrArg Prod.fst hpe'
      simp only at hm'
      subst hm'
      intro p hp
      rcases mem_assocInsert _ _ _ _ hp with heq | hpold
      · subst heq
        dsimp only
        constructor
        · simp [applyEvent_StartTime]
        · simp [applyEvent_StartTime, applyEvent_LastActivity]
      · have hbase := h p hpold
        exact ⟨le_trans hbase.1 hte, hbase.2⟩

/-- The sweep never touches `start_time` or `last_activity`, so it
preserves the time invariant. -/
theorem cleanup_timeOK (m : Manager) (now t : Nat) (h : timeOKP m t) :
    timeOKP (m.CleanupStaleConversations now) t := by
  intro p hp
  rcases cleanup_mem m now p hp with ⟨c, hc, heq⟩
  have hbase := h (p.1, c) hc
  rcases cleanupConv_cases m.tcpTimeout m.udpTimeout now c with h1 | ⟨h1, _⟩
  · rw [heq, h1]
    exact hbase
  · rw [heq, h1]
    exact hbase

/-- Any run with non-decreasing event timestamps preserves the time
invariant. -/
theorem runSteps_timeOK (steps : List TrackStep) :
    ∀ (m : Manager) (t : Nat) (m' : Manager), timeOKP m t →
      stepsMonoB t steps = true → m.runSteps steps = some m' →
      ∃ t', timeOKP m' t' := by
  induction steps with
  | nil =>
      intro m t m' h _ hrun
      unfold Manager.runSteps at hrun
      injection hrun with hrun'
      subst hrun'
      exact ⟨t, h⟩
  | cons s rest ih =>
      intro m t m' h hmono hrun
      cases s with
      | ev e =>
          simp only [stepsMonoB, Bool.and_eq_true, decide_eq_true_eq] at hmono
          obtain ⟨h1, h2⟩ := hmono
          unfold Manager.runSteps at hrun
          cases hpe : m.ProcessEvent e with
          | none => rw [hpe] at hrun; cases hrun
          | some pr =>
              obtain ⟨m1, e1⟩ := pr
              rw [hpe] at hrun
              exact ih m1 e.Timestamp m'
                (processEvent_timeOK m e m1 e1 t h h1 hpe) h2 hrun
      | sweep t0 =>
          simp only [stepsMonoB] at hmono
          unfold Manager.runSteps at hrun
          exact ih (m.CleanupStaleConversations t0) t m'
            (cleanup_timeOK m t0 t h) hmono hrun

end RunLemmas

section ResolverLemmas

/-- A cache miss with a failed (or empty) lookup returns the IP itself
and files it as a negative entry. -/
theorem resolveIP_miss_fail (r : DNSResolver) (now : Nat)
    (lr : Option (List String)) (ip : String)
    (hmiss : r.cacheLookup now ip = none) (hfail : lr = none ∨ lr = some []) :
    r.ResolveIP now lr ip =
      ({ r with cache := assocInsert r.cache ip ⟨ip, now⟩ }, ip, true) := by
  unfold DNSResolver.ResolveIP
  rw [hmiss]
  rcases hfail with rfl | rfl <;> rfl

/-- A cache miss with a successful lookup returns the first name with a
trailing dot stripped and caches it. -/
theorem resolveIP_miss_success (r : DNSResolver) (now : Nat) (name : String)
    (names : List String) (ip : String)
    (hmiss : r.cacheLookup now ip = none) :
    r.ResolveIP now (some (name :: names)) ip =
      ({ r with cache := assocInsert r.cache ip ⟨stripTrailingDot name, now⟩ },
        stripTrailingDot name, true) := by
  unfold DNSResolver.ResolveIP
  rw [hmiss]

/-- A fresh cache hit returns the cached hostname without any lookup. -/
theorem resolveIP_hit (r : DNSResolver) (now : Nat)
    (lr : Option (List String)) (ip h : String)
    (hhit : r.cacheLookup now ip = some h) :
    r.ResolveIP now lr ip = (r, h, false) := by
  unfold DNSResolver.ResolveIP
  rw [hhit]

/-- An entry inserted at `now` is a fresh hit at any `now2` within the
TTL. -/
theorem cacheLookup_after_insert (r : DNSResolver) (ip h0 : String)
    (now now2 : Nat) (httl : (now2 : Int) - now < (r.ttl : Int)) :
    ({ r with cache := assocInsert r.cache ip ⟨h0, now⟩ } : DNSResolver).cacheLookup
      now2 ip = some h0 := by
  unfold DNSResolver.cacheLookup
  simp only [assocFind_insert_self]
  rw [if_pos httl]

end ResolverLemmas

/-! ## The claims -/

/-- C2: the spec says `ExtractSNI` never panics — any bounds violation
yields an empty string.  The code violates this: on `sniPanicPayload`
(type-0 extension whose declared length 255 overruns the 57-byte record)
the slice expression `payload[pos : pos+extLen]` at parser/tls.go is out
of bounds and panics; in the embedding the run reaches the `none` panic
marker instead of returning a string. -/
theorem c2_extractSNI_panics : ExtractSNI sniPanicPayload = none := by decide

/-- C7: scenario S1 — the three-way handshake yields one conversation
whose state after each packet is NEW, NEW, ESTABLISHED; all three events
carry the same conversation id; final counters are `packets_out = 2`,
`packets_in = 1` with `local_ip = 10.0.0.1`. -/
theorem c7_handshake_scenario :
    (((NewManager "10.0.0.1").runEvents [s1e1]).map
        (fun p => p.1.conversations.map (fun q => q.2.State))) =
      some [ConversationState.new] ∧
    (((NewManager "10.0.0.1").runEvents [s1e1, s1e2]).map
        (fun p => p.1.conversations.map (fun q => q.2.State))) =
      some [ConversationState.new] ∧
    (((NewManager "10.0.0.1").runEvents [s1e1, s1e2, s1e3]).map
        (fun p =>
          (p.1.conversations.map
              (fun q => (q.2.State, q.2.Stats.PacketsOut, q.2.Stats.PacketsIn)),
            p.2.map (fun ev => ev.ConversationID)))) =
      some ([(ConversationState.established, 2, 1)],
        ["uuid-0", "uuid-0", "uuid-0"]) := by
  decide

/-- C1 counterexample: the claim requires a fresh id for any event after a
RST, but processing `afterRstEvent` on the very flow the RST closed (state
CLOSED, `end_time = 10`) stamps it with the same id `uuid-0`. -/
theorem c1_id_reused_counterexample :
    (((NewManager "10.0.0.1").runEvents [rstEvent]).map
        (fun p => p.1.conversations.map
          (fun q => (q.2.State, q.2.EndTime)))) =
      some [(ConversationState.closed, some 10)] ∧
    (((NewManager "10.0.0.1").runEvents [rstEvent, afterRstEvent]).map
        (fun p => (p.1.conversations.length,
          p.2.map (fun ev => ev.ConversationID)))) =
      some (1, ["uuid-0", "uuid-0"]) := by
  decide

/-- C3 counterexample: after the handshake reaches ESTABLISHED, a
retransmitted SYN moves the same conversation back to NEW — a backward
transition. -/
theorem c3_back_transition_counterexample :
    (((NewManager "10.0.0.1").runEvents [s1e1, s1e2, s1e3]).map
        (fun p => p.1.conversations.map (fun q => q.2.State))) =
      some [ConversationState.established] ∧
    (((NewManager "10.0.0.1").runEvents [s1e1, s1e2, s1e3, lateSynEvent]).map
        (fun p => p.1.conversations.map (fun q => q.2.State))) =
      some [ConversationState.new] := by
  decide

/-- C4 counterexample: a RST sets `end_time = 10`, and a later event on
the closed flow advances `last_activity` to 20 while `end_time` stays 10,
so `end_time ≥ last_activity` fails (the invariant checker returns
`false` for the flow). -/
theorem c4_endtime_counterexample :
    (((NewManager "10.0.0.1").runEvents [rstEvent, afterRstEvent]).map
        (fun p => p.1.conversations.map
          (fun q => (q.2.EndTime, q.2.Stats.LastActivity, endTimeInvB q.2)))) =
      some [(some 10, 20, false)] := by
  decide

/-- C5 counterexample: the first packet port-infers `HTTPS`; the second
packet carries `app_protocol = SSH`, but `detectService` returns early
because the service is already set, so no override happens. -/
theorem c5_no_override_counterexample :
    (((NewManager "10.0.0.1").runEvents [s1e1]).map
        (fun p => p.1.conversations.map (fun q => q.2.Service))) =
      some ["HTTPS"] ∧
    (((NewManager "10.0.0.1").runEvents [s1e1, appProtoEvent]).map
        (fun p => p.1.conversations.map (fun q => q.2.Service))) =
      some ["HTTPS"] := by
  decide

/-- C6 counterexample: `GetAllConversations` hands out the pointer to the
live record (`uuid-0`): the snapshot taken before `appProtoEvent` shows 3
total packets through that pointer, and after one more event the same
pointer shows 4 — the snapshot's contents changed under the caller. -/
theorem c6_snapshot_counterexample :
    demoM.GetAllConversations = ["uuid-0"] ∧
    (demoM.GetConversation "uuid-0").map Conversation.TotalPackets = some 3 ∧
    (demoAppResult.1.GetConversation "uuid-0").map Conversation.TotalPackets =
      some 4 := by
  decide

/-- C9 counterexample: a message offered to the full hub admission queue
is dropped (the queue is unchanged) and the dropped-events counter is not
incremented — `Server.Broadcast` never touches the C4 stats. -/
theorem c9_drop_without_counter_counterexample :
    ServerBroadcast fullBroadcastQueue demoStats s1e2 =
      (fullBroadcastQueue, demoStats) ∧
    demoStats.droppedPackets = 7 := by
  have h : ¬ (fullBroadcastQueue.length < broadcastChanCap) := by
    simp [fullBroadcastQueue]
  constructor
  · unfold ServerBroadcast
    simp [h]
  · rfl

/-- C10: a `ConversationKey` whose IP strings fail `net.ParseIP` is
returned unchanged by `Normalize`; consequently the two directions of
such a flow normalize to different keys and the tracker files them as two
conversations with distinct ids. -/
theorem c10_unparseable_keys :
    (∀ ck : ConversationKey,
        goParseIP ck.SrcIP = none ∨ goParseIP ck.DstIP = none →
        ck.Normalize = ck) ∧
    (((NewManager "10.0.0.1").runEvents [rawKeyEvent1, rawKeyEvent2]).map
        (fun p => (p.1.conversations.length,
          p.2.map (fun ev => ev.ConversationID)))) =
      some (2, ["uuid-0", "uuid-1"]) := by
  constructor
  · intro ck h
    cases hs : goParseIP ck.SrcIP with
    | none => simp [ConversationKey.Normalize, hs]
    | some a =>
        cases hd : goParseIP ck.DstIP with
        | none => simp [ConversationKey.Normalize, hs, hd]
        | some b =>
            rcases h with h | h
            · rw [hs] at h; cases h
            · rw [hd] at h; cases h
  · decide

/-- C1 (amended): after a TCP Event carrying RST is processed on a flow
whose TCP state is tracked, the conversation's state is CLOSED and
`end_time` is set to the event's timestamp; but a later Event on the same
5-tuple does NOT start a new Conversation — while the entry remains filed
(the sweep only drops it an hour after last activity), the Event is
stamped with the same closed conversation's id and no fresh id is
allocated. -/
theorem c1_rst_closes_but_id_is_reused :
    (∀ (m : Manager) (e : NetworkEvent) (f : TCPPacketFlags)
        (m' : Manager) (e' : NetworkEvent) (c' : Conversation),
        m.ProcessEvent e = some (m', e') →
        e.TransportProtocol = "TCP" → e.TCPFlags = some f → f.RST = true →
        assocFind m'.conversations e'.ConversationID = some c' →
        c'.TCPState.isSome = true →
        c'.State = ConversationState.closed ∧ c'.EndTime = some e.Timestamp) ∧
    (∀ (m : Manager) (e : NetworkEvent) (cid : String) (conv : Conversation),
        assocFind m.keyToID ((eventKey e).Normalize.keyString) = some cid →
        assocFind m.conversations cid = some conv →
        ((m.ProcessEvent e).map
          (fun p => (p.2.ConversationID, p.1.nextID))) = some (cid, m.nextID)) := by
  constructor
  · intro m e f m' e' c' hpe htcp hf hrst hfind hts
    cases hk : assocFind m.keyToID ((eventKey e).Normalize.keyString) with
    | some cid =>
        cases hc : assocFind m.conversations cid with
        | some conv =>
            rw [processEvent_existing m e cid conv hk hc] at hpe
            injection hpe with hpe'
            have hm' := congrArg Prod.fst hpe'
            have he' := congrArg Prod.snd hpe'
            simp only at hm' he'
            subst hm'
            subst he'
            simp only [assocFind_insert_self] at hfind
            injection hfind with hfind'
            subst hfind'
            rw [applyEvent_TCPState_isSome] at hts
            exact applyEvent_closed_of_RST m.localIP conv
              { e with ConversationID := cid } (eventKey e) f htcp hf hrst hts
        | none =>
            rw [processEvent_dangling m e cid hk hc] at hpe
            cases hpe
    | none =>
        rw [processEvent_fresh m e hk] at hpe
        injection hpe with hpe'
        have hm' := congrArg Prod.fst hpe'
        have he' := congrArg Prod.snd hpe'
        simp only at hm' he'
        subst hm'
        subst he'
        simp only [assocFind_insert_self] at hfind
        injection hfind with hfind'
        subst hfind'
        refine applyEvent_closed_of_RST m.localIP _
          { e with ConversationID := idOf m.nextID } (eventKey e) f htcp hf hrst ?_
        simp [htcp, hf]
  · intro m e cid conv h1 h2
    rw [processEvent_existing m e cid conv h1 h2]
    simp

/-- C1 witness: the RST on the handshake flow closes it with
`end_time = 10`, and the follow-up event is stamped with the same id
while the id counter stays at 1. -/
theorem c1_witness :
    (demoM.ProcessEvent rstEvent = some (demoMAfterRst, demoEAfterRst) ∧
      rstEvent.TransportProtocol = "TCP" ∧
      rstEvent.TCPFlags = some flagsRSTOnly ∧ flagsRSTOnly.RST = true ∧
      assocFind demoMAfterRst.conversations demoEAfterRst.ConversationID =
        some demoConvAfterRst ∧
      demoConvAfterRst.TCPState.isSome = true ∧
      demoConvAfterRst.State = ConversationState.closed ∧
      demoConvAfterRst.EndTime = some rstEvent.Timestamp) ∧
    (assocFind demoMAfterRst.keyToID ((eventKey afterRstEvent).Normalize.keyString) =
        some "uuid-0" ∧
      ((demoMAfterRst.ProcessEvent afterRstEvent).map
        (fun p => (p.2.ConversationID, p.1.nextID))) = some ("uuid-0", 1)) := by
  constructor
  · refine ⟨by decide, by decide, by decide, by decide, by decide, by decide, ?_, ?_⟩
    · exact (c1_rst_closes_but_id_is_reused.1 demoM rstEvent flagsRSTOnly
        demoMAfterRst demoEAfterRst demoConvAfterRst (by decide) (by decide)
        (by decide) (by decide) (by decide) (by decide)).1
    · exact (c1_rst_closes_but_id_is_reused.1 demoM rstEvent flagsRSTOnly
        demoMAfterRst demoEAfterRst demoConvAfterRst (by decide) (by decide)
        (by decide) (by decide) (by decide) (by decide)).2
  · constructor
    · decide
    · have := c1_rst_closes_but_id_is_reused.2 demoMAfterRst afterRstEvent
        "uuid-0" demoConvAfterRst (by decide) (by decide)
      simpa using this

/-- C3 (amended): a processing step on an existing conversation either
leaves the state's rank unchanged or increasing, or performs one of the
three flag-forced assignments that can move it backward: SYN-without-ACK
resets to NEW, FIN sets CLOSING, a pure ACK completing the handshake sets
ESTABLISHED.  The eviction sweep itself never moves a state backward: it
either leaves the state alone or promotes it to CLOSED. -/
theorem c3_forward_except_flag_assignments :
    (∀ (m : Manager) (e : NetworkEvent) (cid : String) (c c' : Conversation)
        (m' : Manager) (e' : NetworkEvent),
        assocFind m.keyToID ((eventKey e).Normalize.keyString) = some cid →
        assocFind m.conversations cid = some c →
        m.ProcessEvent e = some (m', e') →
        assocFind m'.conversations cid = some c' →
        stateRank c.State ≤ stateRank c'.State ∨
          fsmExceptionB e.TCPFlags c'.State = true) ∧
    (∀ (m : Manager) (now : Nat) (p' : String × Conversation),
        p' ∈ (m.CleanupStaleConversations now).conversations →
        ∃ c, (p'.1, c) ∈ m.conversations ∧
          (p'.2.State = c.State ∨ p'.2.State = ConversationState.closed)) := by
  constructor
  · intro m e cid c c' m' e' hk hc hpe hfind
    rw [processEvent_existing m e cid c hk hc] at hpe
    injection hpe with hpe'
    have hm' := congrArg Prod.fst hpe'
    simp only at hm'
    subst hm'
    simp only [assocFind_insert_self] at hfind
    injection hfind with hfind'
    subst hfind'
    rcases applyEvent_forward m.localIP c { e with ConversationID := cid }
        (eventKey e) with h | ⟨f, hf, hcase⟩
    · exact Or.inl h
    · right
      have hf' : e.TCPFlags = some f := hf
      rcases hcase with ⟨h1, h2, h3⟩ | ⟨h1, h2⟩ | ⟨h1, h2, h3⟩
      · rw [h3, hf']
        simp [fsmExceptionB, h1, h2]
      · rw [h2, hf']
        simp [fsmExceptionB, h1]
      · rw [h3, hf']
        simp [fsmExceptionB, h1, h2]
  · intro m now p' hmem
    rcases cleanup_mem m now p' hmem with ⟨c, hc, heq⟩
    rcases cleanupConv_cases m.tcpTimeout m.udpTimeout now c with h | ⟨h, _⟩
    · exact ⟨c, hc, Or.inl (by rw [heq, h])⟩
    · exact ⟨c, hc, Or.inr (by rw [heq, h])⟩

/-- C3 witness: the retransmitted SYN on the established handshake flow
takes the flag-exception branch (state back to NEW), and sweeping the
tracker is covered by the sweep clause. -/
theorem c3_witness :
    (assocFind demoM.keyToID ((eventKey lateSynEvent).Normalize.keyString) =
        some "uuid-0" ∧
      assocFind demoM.conversations "uuid-0" = some demoConv ∧
      demoM.ProcessEvent lateSynEvent = some (demoSynResult.1, demoSynResult.2) ∧
      assocFind demoSynResult.1.conversations "uuid-0" = some demoConvAfterSyn ∧
      (stateRank demoConv.State ≤ stateRank demoConvAfterSyn.State ∨
        fsmExceptionB lateSynEvent.TCPFlags demoConvAfterSyn.State = true)) ∧
    (("uuid-0", demoConvSwept) ∈
        (demoM.CleanupStaleConversations 400).conversations ∧
      ∃ c, ("uuid-0", c) ∈ demoM.conversations ∧
        (demoConvSwept.State = c.State ∨
          demoConvSwept.State = ConversationState.closed)) := by
  constructor
  · refine ⟨by decide, by decide, by decide, by decide, ?_⟩
    exact c3_forward_except_flag_assignments.1 demoM lateSynEvent "uuid-0"
      demoConv demoConvAfterSyn demoSynResult.1 demoSynResult.2
      (by decide) (by decide) (by decide) (by decide)
  · refine ⟨by decide, ?_⟩
    have := c3_forward_except_flag_assignments.2 demoM 400
      ("uuid-0", demoConvSwept) (by decide)
    simpa using this

/-- C4 (amended): for every run with non-decreasing event timestamps
(sweeps interleaved anywhere), every conversation satisfies
`last_activity ≥ start_time`; and `end_time ≥ last_activity` holds at the
moment `end_time` is assigned — a RST sets `end_time` equal to the
then-current `last_activity`, and the sweep sets `end_time = now`
strictly after the flow's `last_activity` — but it need not persist: a
later Event on the flow advances `last_activity` past the set
`end_time`. -/
theorem c4_time_invariants :
    (∀ (ip : String) (steps : List TrackStep),
        stepsMonoB 0 steps = true →
        optAllManager startBeforeLastB ((NewManager ip).runSteps steps) = true) ∧
    (∀ (m : Manager) (e : NetworkEvent) (f : TCPPacketFlags)
        (m' : Manager) (e' : NetworkEvent) (c' : Conversation),
        m.ProcessEvent e = some (m', e') →
        e.TransportProtocol = "TCP" → e.TCPFlags = some f → f.RST = true →
        assocFind m'.conversations e'.ConversationID = some c' →
        c'.TCPState.isSome = true →
        c'.EndTime = some c'.Stats.LastActivity) ∧
    (∀ (m : Manager) (now : Nat) (p' : String × Conversation),
        p' ∈ (m.CleanupStaleConversations now).conversations →
        ∃ c, (p'.1, c) ∈ m.conversations ∧
          (p'.2.EndTime = c.EndTime ∨
            (p'.2.EndTime = some now ∧ p'.2.Stats.LastActivity < now))) := by
  refine ⟨?_, ?_, ?_⟩
  · intro ip steps hmono
    cases hr : (NewManager ip).runSteps steps with
    | none => rfl
    | some m =>
        have hstart : timeOKP (NewManager ip) 0 := by
          intro p hp
          simp [NewManager] at hp
        obtain ⟨t', hOK⟩ := runSteps_timeOK steps (NewManager ip) 0 m
          hstart hmono hr
        simp only [optAllManager, startBeforeLastB, List.all_eq_true,
          decide_eq_true_eq]
        intro p hp
        exact (hOK p hp).2
  · intro m e f m' e' c' hpe htcp hf hrst hfind hts
    cases hk : assocFind m.keyToID ((eventKey e).Normalize.keyString) with
    | some cid =>
        cases hc : assocFind m.conversations cid with
        | some conv =>
            rw [processEvent_existing m e cid conv hk hc] at hpe
            injection hpe with hpe'
            have hm' := congrArg Prod.fst hpe'
            have he' := congrArg Prod.snd hpe'
            simp only at hm' he'
            subst hm'
            subst he'
            simp only [assocFind_insert_self] at hfind
            injection hfind with hfind'
            subst hfind'
            rw [applyEvent_TCPState_isSome] at hts
            rw [(applyEvent_closed_of_RST m.localIP conv
              { e with ConversationID := cid } (eventKey e) f htcp hf hrst hts).2]
            rw [applyEvent_LastActivity]
        | none =>
            rw [processEvent_dangling m e cid hk hc] at hpe
            cases hpe
    | none =>
        rw [processEvent_fresh m e hk] at hpe
        injection hpe with hpe'
        have hm' := congrArg Prod.fst hpe'
        have he' := congrArg Prod.snd hpe'
        simp only at hm' he'
        subst hm'
        subst he'
        simp only [assocFind_insert_self] at hfind
        injection hfind with hfind'
        subst hfind'
        rw [(applyEvent_closed_of_RST m.localIP _
          { e with ConversationID := idOf m.nextID } (eventKey e) f htcp hf hrst
          (by simp [htcp, hf])).2]
        rw [applyEvent_LastActivity]
  · intro m now p' hmem
    rcases cleanup_mem m now p' hmem with ⟨c, hc, heq⟩
    rcases cleanupConv_cases m.tcpTimeout m.udpTimeout now c with h1 | ⟨h1, h2⟩
    · exact ⟨c, hc, Or.inl (by rw [heq, h1])⟩
    · refine ⟨c, hc, Or.inr ⟨by rw [heq, h1], ?_⟩⟩
      rw [heq, h1]
      exact h2

/-- C4 witness: the invariant checker accepts the handshake run with an
interleaved sweep; the RST on the demo flow sets
`end_time = last_activity`; and the sweep clause instantiated at the
swept demo table. -/
theorem c4_witness :
    (stepsMonoB 0 demoSteps = true ∧
      optAllManager startBeforeLastB ((NewManager "10.0.0.1").runSteps demoSteps) =
        true) ∧
    (demoConvAfterRst.EndTime = some demoConvAfterRst.Stats.LastActivity) ∧
    (("uuid-0", demoConvSwept) ∈
        (demoM.CleanupStaleConversations 400).conversations ∧
      ∃ c, ("uuid-0", c) ∈ demoM.conversations ∧
        (demoConvSwept.EndTime = c.EndTime ∨
          (demoConvSwept.EndTime = some 400 ∧
            demoConvSwept.Stats.LastActivity < 400))) := by
  refine ⟨⟨by decide, c4_time_invariants.1 "10.0.0.1" demoSteps (by decide)⟩,
    ?_, ?_⟩
  · exact c4_time_invariants.2.1 demoM rstEvent flagsRSTOnly demoMAfterRst
      demoEAfterRst demoConvAfterRst (by decide) (by decide) (by decide)
      (by decide) (by decide) (by decide)
  · exact ⟨by decide, c4_time_invariants.2.2 demoM 400
      ("uuid-0", demoConvSwept) (by decide)⟩

/-- C5 (amended): the service label is write-once.  A call with the
service already set changes nothing, so an Event carrying `app_protocol`
after the service was port-inferred on an earlier Event does NOT override
it; the `app_protocol` override only takes effect inside the single call
that first sets the service (where it wins over the port inference). -/
theorem c5_service_write_once :
    (∀ (c : Conversation) (e : NetworkEvent), c.Service ≠ "" →
        (detectService c e).Service = c.Service) ∧
    (∀ (c : Conversation) (e : NetworkEvent), c.Service = "" →
        (detectService c e).Service =
          (if e.AppProtocol ≠ "" then e.AppProtocol
           else
             match portService e.DestPort with
             | some s => s
             | none =>
                 match portService e.SourcePort with
                 | some s => s
                 | none => "")) ∧
    (∀ (m : Manager) (e : NetworkEvent) (cid : String) (c c' : Conversation)
        (m' : Manager) (e' : NetworkEvent),
        assocFind m.keyToID ((eventKey e).Normalize.keyString) = some cid →
        assocFind m.conversations cid = some c →
        c.Service ≠ "" →
        m.ProcessEvent e = some (m', e') →
        assocFind m'.conversations cid = some c' →
        c'.Service = c.Service) := by
  refine ⟨?_, ?_, ?_⟩
  · intro c e h
    exact dS_Service_stable c e h
  · intro c e h
    unfold detectService
    simp [h]
  · intro m e cid c c' m' e' hk hc hsvc hpe hfind
    rw [processEvent_existing m e cid c hk hc] at hpe
    injection hpe with hpe'
    have hm' := congrArg Prod.fst hpe'
    simp only at hm'
    subst hm'
    simp only [assocFind_insert_self] at hfind
    injection hfind with hfind'
    subst hfind'
    exact applyEvent_Service_stable m.localIP c _ (eventKey e) hsvc

/-- C5 witness: `detectService` leaves the demo flow's `HTTPS` label in
place even when the event carries `app_protocol = SSH`; on an unfiled
flow the first call prefers the app protocol; and at the tracker level
the stored service survives the follow-up event. -/
theorem c5_witness :
    (demoConv.Service ≠ "" ∧
      (detectService demoConv appProtoEvent).Service = demoConv.Service) ∧
    ((default : Conversation).Service = "" ∧
      (detectService default appProtoEvent).Service =
        (if appProtoEvent.AppProtocol ≠ "" then appProtoEvent.AppProtocol
         else
           match portService appProtoEvent.DestPort with
           | some s => s
           | none =>
               match portService appProtoEvent.SourcePort with
               | some s => s
               | none => "")) ∧
    (assocFind demoM.keyToID ((eventKey appProtoEvent).Normalize.keyString) =
        some "uuid-0" ∧
      demoConvAfterApp.Service = demoConv.Service) := by
  refine ⟨⟨by decide, ?_⟩, ⟨by decide, ?_⟩, ⟨by decide, ?_⟩⟩
  · exact c5_service_write_once.1 demoConv appProtoEvent (by decide)
  · exact c5_service_write_once.2.1 default appProtoEvent (by decide)
  · exact c5_service_write_once.2.2 demoM appProtoEvent "uuid-0" demoConv
      demoConvAfterApp demoAppResult.1 demoAppResult.2 (by decide) (by decide)
      (by decide) (by decide) (by decide)

/-- C6 (amended): `GetConversationSummaries` builds per-flow value
records, but `GetActiveConversations` and `GetAllConversations` return
pointers into the live flow table: for any flow present in such a
snapshot, processing one more Event on it changes the contents seen
through the snapshot's pointer — the total packet count grows by one. -/
theorem c6_snapshots_expose_live_references :
    ∀ (m : Manager) (e : NetworkEvent) (cid : String) (c c' : Conversation)
      (m' : Manager) (e' : NetworkEvent),
      assocFind m.keyToID ((eventKey e).Normalize.keyString) = some cid →
      assocFind m.conversations cid = some c →
      m.ProcessEvent e = some (m', e') →
      assocFind m'.conversations cid = some c' →
      cid ∈ m.GetAllConversations ∧ c'.TotalPackets = c.TotalPackets + 1 := by
  intro m e cid c c' m' e' hk hc hpe hfind
  constructor
  · unfold Manager.GetAllConversations
    exact List.mem_map_of_mem Prod.fst (assocFind_mem _ _ _ hc)
  · rw [processEvent_existing m e cid c hk hc] at hpe
    injection hpe with hpe'
    have hm' := congrArg Prod.fst hpe'
    simp only at hm'
    subst hm'
    simp only [assocFind_insert_self] at hfind
    injection hfind with hfind'
    subst hfind'
    exact applyEvent_TotalPackets m.localIP c _ (eventKey e)

/-- C6 witness: the demo flow is in the snapshot taken before
`appProtoEvent`, and dereferencing it afterwards shows one more
packet. -/
theorem c6_witness :
    (assocFind demoM.keyToID ((eventKey appProtoEvent).Normalize.keyString) =
        some "uuid-0" ∧
      assocFind demoM.conversations "uuid-0" = some demoConv ∧
      demoM.ProcessEvent appProtoEvent = some (demoAppResult.1, demoAppResult.2) ∧
      assocFind demoAppResult.1.conversations "uuid-0" = some demoConvAfterApp) ∧
    ("uuid-0" ∈ demoM.GetAllConversations ∧
      demoConvAfterApp.TotalPackets = demoConv.TotalPackets + 1) := by
  refine ⟨⟨by decide, by decide, by decide, by decide⟩, ?_⟩
  exact c6_snapshots_expose_live_references demoM appProtoEvent "uuid-0"
    demoConv demoConvAfterApp demoAppResult.1 demoAppResult.2
    (by decide) (by decide) (by decide) (by decide)

/-- C8: `ResolveIP` always returns a value; on a cache miss a failed (or
empty) reverse lookup returns the IP itself and caches it as a negative
entry, a successful lookup returns the first name with its trailing dot
stripped and caches it, and a repeated call within the TTL is served from
the cache without performing a lookup. -/
theorem c8_resolver_contract :
    (∀ (r : DNSResolver) (now : Nat) (lr : Option (List String)) (ip : String),
        r.cacheLookup now ip = none → lr = none ∨ lr = some [] →
        r.ResolveIP now lr ip =
          ({ r with cache := assocInsert r.cache ip ⟨ip, now⟩ }, ip, true)) ∧
    (∀ (r : DNSResolver) (now : Nat) (name : String) (names : List String)
        (ip : String),
        r.cacheLookup now ip = none →
        r.ResolveIP now (some (name :: names)) ip =
          ({ r with cache := assocInsert r.cache ip ⟨stripTrailingDot name, now⟩ },
            stripTrailingDot name, true)) ∧
    (∀ (r : DNSResolver) (now : Nat) (lr : Option (List String)) (ip h : String),
        r.cacheLookup now ip = some h →
        r.ResolveIP now lr ip = (r, h, false)) ∧
    (∀ (r : DNSResolver) (now now2 : Nat) (lr lr2 : Option (List String))
        (ip : String),
        r.cacheLookup now ip = none →
        (now2 : Int) - now < (r.ttl : Int) →
        (r.ResolveIP now lr ip).1.ResolveIP now2 lr2 ip =
          ((r.ResolveIP now lr ip).1, (r.ResolveIP now lr ip).2.1, false)) := by
  refine ⟨resolveIP_miss_fail, resolveIP_miss_success, resolveIP_hit, ?_⟩
  intro r now now2 lr lr2 ip hmiss httl
  rcases lr with _ | ls
  · rw [resolveIP_miss_fail r now none ip hmiss (Or.inl rfl)]
    exact resolveIP_hit _ now2 lr2 ip ip
      (cacheLookup_after_insert r ip ip now now2 httl)
  · rcases ls with _ | ⟨n, ns⟩
    · rw [resolveIP_miss_fail r now (some []) ip hmiss (Or.inr rfl)]
      exact resolveIP_hit _ now2 lr2 ip ip
        (cacheLookup_after_insert r ip ip now now2 httl)
    · rw [resolveIP_miss_success r now n ns ip hmiss]
      exact resolveIP_hit _ now2 lr2 ip (stripTrailingDot n)
        (cacheLookup_after_insert r ip (stripTrailingDot n) now now2 httl)

/-- C8 witness: a fresh resolver looks up `1.2.3.4`, strips the trailing
dot from `example.com.`, caches it, and a second call 50 seconds later is
served from the cache with no lookup; a failing lookup for `9.9.9.9`
returns and caches the IP itself. -/
theorem c8_witness :
    (demoResolver.cacheLookup 100 "9.9.9.9" = none ∧
      demoResolver.ResolveIP 100 none "9.9.9.9" =
        ({ demoResolver with
            cache := assocInsert demoResolver.cache "9.9.9.9" ⟨"9.9.9.9", 100⟩ },
          "9.9.9.9", true)) ∧
    (demoResolver.cacheLookup 100 "1.2.3.4" = none ∧
      demoResolver.ResolveIP 100 (some ["example.com."]) "1.2.3.4" =
        ({ demoResolver with
            cache := assocInsert demoResolver.cache "1.2.3.4"
              ⟨stripTrailingDot "example.com.", 100⟩ },
          stripTrailingDot "example.com.", true)) ∧
    ((150 : Int) - 100 < (demoResolver.ttl : Int) ∧
      (demoResolver.ResolveIP 100 (some ["example.com."]) "1.2.3.4").1.ResolveIP
          150 none "1.2.3.4" =
        ((demoResolver.ResolveIP 100 (some ["example.com."]) "1.2.3.4").1,
          (demoResolver.ResolveIP 100 (some ["example.com."]) "1.2.3.4").2.1,
          false)) := by
  refine ⟨⟨by decide, ?_⟩, ⟨by decide, ?_⟩, ⟨by decide, ?_⟩⟩
  · exact c8_resolver_contract.1 demoResolver 100 none "9.9.9.9" (by decide)
      (Or.inl rfl)
  · exact c8_resolver_contract.2.1 demoResolver 100 "example.com." [] "1.2.3.4"
      (by decide)
  · exact c8_resolver_contract.2.2.2 demoResolver 100 150
      (some ["example.com."]) none "1.2.3.4" (by decide) (by decide)

/-- C9 (amended): both admission points between the pipeline and the
subscribers drop rather than block when their queue is full, but only the
capture-side event queue increments the C4 dropped counter on a drop; the
hub's broadcast admission queue (`Server.Broadcast`) drops the message
with the statistics untouched. -/
theorem c9_capture_counts_hub_does_not :
    (∀ (q : List NetworkEvent) (st : PacketStats) (e : NetworkEvent),
        ¬ q.length < eventsChanCap →
        captureSend q st e = (q, st.IncrementDropped)) ∧
    (∀ (q : List NetworkEvent) (st : PacketStats) (e : NetworkEvent),
        q.length < eventsChanCap →
        captureSend q st e = (q ++ [e], st.IncrementProcessed)) ∧
    (∀ (q : List WireMessage) (st : PacketStats) (e : NetworkEvent),
        ¬ q.length < broadcastChanCap →
        ServerBroadcast q st e = (q, st)) ∧
    (∀ (q : List WireMessage) (st : PacketStats) (e : NetworkEvent),
        q.length < broadcastChanCap →
        ServerBroadcast q st e =
          (q ++ [{ type := "network_event", eventData := e }], st)) := by
  refine ⟨?_, ?_, ?_, ?_⟩
  · intro q st e h
    unfold captureSend
    rw [if_neg h]
  · intro q st e h
    unfold captureSend
    rw [if_pos h]
  · intro q st e h
    unfold ServerBroadcast
    rw [if_neg h]
  · intro q st e h
    unfold ServerBroadcast
    rw [if_pos h]

/-- C9 witness: the four admission cases at concrete queues — a full
capture queue increments the dropped counter, a non-full one enqueues; a
full hub queue drops with the stats untouched, a non-full one
enqueues. -/
theorem c9_witness :
    (¬ fullEventsQueue.length < eventsChanCap ∧
      captureSend fullEventsQueue demoStats s1e1 =
        (fullEventsQueue, demoStats.IncrementDropped)) ∧
    (([] : List NetworkEvent).length < eventsChanCap ∧
      captureSend [] demoStats s1e1 = ([s1e1], demoStats.IncrementProcessed)) ∧
    (¬ fullBroadcastQueue.length < broadcastChanCap ∧
      ServerBroadcast fullBroadcastQueue demoStats s1e1 =
        (fullBroadcastQueue, demoStats)) ∧
    (([] : List WireMessage).length < broadcastChanCap ∧
      ServerBroadcast [] demoStats s1e1 = ([demoWireMessage], demoStats)) := by
  have h1 : ¬ fullEventsQueue.length < eventsChanCap := by
    simp [fullEventsQueue]
  have h2 : ¬ fullBroadcastQueue.length < broadcastChanCap := by
    simp [fullBroadcastQueue]
  refine ⟨⟨h1, ?_⟩, ⟨by decide, ?_⟩, ⟨h2, ?_⟩, ⟨by decide, ?_⟩⟩
  · exact c9_capture_counts_hub_does_not.1 fullEventsQueue demoStats s1e1 h1
  · exact c9_capture_counts_hub_does_not.2.1 [] demoStats s1e1 (by decide)
  · exact c9_capture_counts_hub_does_not.2.2.1 fullBroadcastQueue demoStats
      s1e1 h2
  · exact c9_capture_counts_hub_does_not.2.2.2 [] demoStats s1e1 (by decide)

/-- C10 witness: instantiating the normalization clause at the concrete
unparseable key of the scenario. -/
theorem c10_witness :
    goParseIP "hostA" = none ∧
    ConversationKey.Normalize
      { Protocol := "TCP", SrcIP := "hostA", SrcPort := 1,
        DstIP := "hostB", DstPort := 2 } =
      { Protocol := "TCP", SrcIP := "hostA", SrcPort := 1,
        DstIP := "hostB", DstPort := 2 } :=
  ⟨by decide, c10_unparseable_keys.1 _ (Or.inl (by decide))⟩

end Netty
